import Mathlib

/-!
Verification of the pyxfer/montgomery type-support layer (`src/pyxfer/type_support.py`,
`src/montgomery/type_support.py`, `src/test.py`).

The repository generates Python serializer code; the claims are about the behaviour of
that generated code and of the code generators themselves.  We shallow-embed:

* Python dict/list/tuple values (`PyVal`), Python dict operations with their
  insertion/overwrite semantics (`alget` / `alset` / `aldel`);
* the column-type filter of `SQLATypeSupport.__init__`;
* the generated single-valued-relation presence test of
  `DictTypeSupport.gen_is_single_relation_present`;
* the collection-kind dispatch of `SQLATypeSupport.relation_copy` and the generated
  relation-merge procedures `gen_merge_relation_sqla` / `gen_merge_relation_sqla2`;
* the generated serializers for the concrete schema of `src/test.py`
  (`Order` / `OrderPart` / `Operation`), in both directions, with the run-scoped cache.

The walker/serializer skeleton lives in `pyxfer/pyxfer.py`, which is not part of the
sources given; where its behaviour is needed it is modelled from the specification
(definitions marked `Modelled from the spec:`).
-/

/-- Python scalar values that appear as dict fields and inside cache keys. -/
inductive Scalar where
  | none
  | int (n : Int)
  | str (s : String)
deriving DecidableEq, Repr

/-- Python values stored in the dict representation: scalars, tuples
(`__PYX_REUSE` values), lists and dicts. -/
inductive PyVal where
  | scalar (s : Scalar)
  | tup (vs : List PyVal)
  | pylist (vs : List PyVal)
  | dict (entries : List (String × PyVal))
deriving Repr

/-- A Python dict with string keys, as an insertion-ordered association list. -/
abbrev PyDict := List (String × PyVal)

/-- Python dict lookup `d[k]` / `d.get(k)`: value of the (unique) entry for `k`. -/
def alget [DecidableEq κ] : List (κ × α) → κ → Option α
  | [], _ => Option.none
  | (k1, v1) :: rest, k => if k1 = k then some v1 else alget rest k

/-- Python dict assignment `d[k] = v`: overwrite in place (keeping the entry's
position) if `k` is present, else append a new entry at the end. -/
def alset [DecidableEq κ] : List (κ × α) → κ → α → List (κ × α)
  | [], k, v => [(k, v)]
  | (k1, v1) :: rest, k, v =>
    if k1 = k then (k1, v) :: rest else (k1, v1) :: alset rest k v

/-- Python dict deletion `del d[k]`. -/
def aldel [DecidableEq κ] : List (κ × α) → κ → List (κ × α)
  | [], _ => []
  | (k1, v1) :: rest, k => if k1 = k then rest else (k1, v1) :: aldel rest k

/-- Python membership test `k in d`. -/
def almem [DecidableEq κ] (k : κ) (d : List (κ × α)) : Bool :=
  (alget d k).isSome

/-- Python truthiness of a scalar (`None`, `0` and `""` are falsy). -/
def pyTruthyScalar : Scalar → Bool
  | .none => false
  | .int n => n ≠ 0
  | .str s => s ≠ ""

/-- Python truthiness of a value (empty containers are falsy). -/
def pyTruthy : PyVal → Bool
  | .scalar s => pyTruthyScalar s
  | .tup vs => !vs.isEmpty
  | .pylist vs => !vs.isEmpty
  | .dict es => !es.isEmpty

/-- Python identity test `v is None`. -/
def pyIsNone : PyVal → Bool
  | .scalar .none => true
  | _ => false

/-! ### C9 — the scalar-field filter of `SQLATypeSupport.__init__`

`src/pyxfer/type_support.py` lines 207-215 (identical in `src/montgomery/type_support.py`
lines 135-143):

    fields = dict()
    for f, t in self.fnames.items():
        if t == String:
            fields[f] = str
        elif isinstance(t, Integer):
            fields[f] = int
    self._fields = fields

and `fields()` returns `self._fields.keys()`.
-/

/-- The column type `t` reported for a field by the schema introspector, as the
filter in `SQLATypeSupport.__init__` discriminates it: the SQLAlchemy class
`String` itself (`t == String`), a `String(...)` instance (for which `t == String`
is false), an instance of `Integer` or of one of its subclasses
(`isinstance(t, Integer)`), or `Float` / `Date` instances. -/
inductive SqlaColType where
  | stringClass
  | stringInstance
  | integerInstance
  | floatInstance
  | dateInstance
deriving DecidableEq, Repr

/-- The Python base type recorded for a retained field. -/
inductive PyFieldClass where
  | strClass
  | intClass
deriving DecidableEq, Repr

/-- The field filter of `SQLATypeSupport.__init__`: keep `String`-class columns as
`str` and `Integer`-instance columns as `int`; silently drop everything else.
`fnames` is a dict, so its items have unique field names. -/
def sqlaFieldsFilter : List (String × SqlaColType) → List (String × PyFieldClass)
  | [] => []
  | (f, t) :: rest =>
    if t = .stringClass then (f, .strClass) :: sqlaFieldsFilter rest
    else if t = .integerInstance then (f, .intClass) :: sqlaFieldsFilter rest
    else sqlaFieldsFilter rest

/-- Modelled from the spec: the walker (`pyxfer/pyxfer.py`, not among the given
sources) emits one field-copy step per scalar field of the adapter (§4.2 step 3);
the entity-backed adapter reports `self._fields.keys()` (`SQLATypeSupport.fields`),
so the emitted field-copy steps are exactly the retained field names. -/
def emittedFieldSteps (cols : List (String × SqlaColType)) : List String :=
  (sqlaFieldsFilter cols).map Prod.fst

/-- The columns of the `Order` mapper of `src/test.py`: `order_id` is an `Integer`
column, `start_date` a `Date` column, `cost` a `Float` column. -/
def orderColumns : List (String × SqlaColType) :=
  [("order_id", .integerInstance), ("start_date", .dateInstance), ("cost", .floatInstance)]

/-! ### C10 — `DictTypeSupport.gen_is_single_relation_present`

`src/pyxfer/type_support.py` lines 415-416 generates, for a dict-backed source,
the presence test `('rel' in d and d['rel'] is not None)`.
-/

/-- The generated presence test for a single-valued relation of a dict-backed
instance: `('rel' in d and d['rel'] is not None)`. -/
def isSingleRelationPresentDict (d : PyDict) (relation_name : String) : Bool :=
  match alget d relation_name with
  | Option.none => false
  | some v => !(pyIsNone v)

/-! ### C7 — collection-kind dispatch

`gen_merge_relation_sqla` (`src/pyxfer/type_support.py` lines 41-48; likewise the
montgomery variant, lines 113-119 of `src/montgomery/type_support.py`) chooses the
insertion operation from its `collection_class` argument and raises
`Exception("Unrecognized collection type")` for anything that is neither `list`
nor `set`.  `SQLATypeSupport.relation_copy` (lines 326-341) computes that argument
from the schema as: `set` if the relation's `collection_class == set`, else `list`.
-/

/-- A multi-valued relation's collection class as found in the schema: `list`,
`set`, or anything else (e.g. `None` or a custom collection class). -/
inductive CollectionClass where
  | list
  | set
  | other
deriving DecidableEq, Repr

/-- The insertion operation emitted into the generated merge code. -/
inductive InsertOp where
  | append
  | add
deriving DecidableEq, Repr

/-- The `collection_class` dispatch of `gen_merge_relation_sqla`: `list` emits
`.append(...)`, `set` emits `.add(...)`, anything else raises
`Exception("Unrecognized collection type")` while the code is being generated. -/
def genMergeInsertOp : CollectionClass → Except String InsertOp
  | .list => .ok .append
  | .set => .ok .add
  | .other => .error "Unrecognized collection type"

/-- The collection-kind resolution of `SQLATypeSupport.relation_copy`:
`if a.collection_class == set: collection_class = set else: collection_class = list`. -/
def relationCopyResolveClass : CollectionClass → CollectionClass
  | .set => .set
  | _ => .list

/-- Generating the insertion operation for a relation through
`SQLATypeSupport.relation_copy` (resolution then `gen_merge_relation_sqla`). -/
def relationCopyInsertOp (c : CollectionClass) : Except String InsertOp :=
  genMergeInsertOp (relationCopyResolveClass c)

/-! ## Theorems -/

/-- C9: the entity-backed adapter's reported scalar-field set (and hence the set of
fields for which field-copy steps are emitted) contains exactly the columns whose
column type is the `String` class or an `Integer` instance; all other column types
(e.g. `Float`, `Date`) are silently excluded — concretely, of the `Order` columns
only `order_id` is retained. -/
theorem c9_sqla_fields_exactly_string_and_integer :
    (∀ (cols : List (String × SqlaColType)) (f : String),
      f ∈ emittedFieldSteps cols ↔
        ∃ t, (f, t) ∈ cols ∧ (t = SqlaColType.stringClass ∨ t = SqlaColType.integerInstance)) ∧
    emittedFieldSteps orderColumns = ["order_id"] ∧
    sqlaFieldsFilter orderColumns = [("order_id", PyFieldClass.intClass)] := by
  refine ⟨?_, rfl, rfl⟩
  intro cols f
  induction cols with
  | nil => simp [emittedFieldSteps, sqlaFieldsFilter]
  | cons ft rest ih =>
    obtain ⟨g, t⟩ := ft
    unfold emittedFieldSteps at ih ⊢
    cases t <;> simp [sqlaFieldsFilter, ih, Prod.mk.injEq] <;> aesop

/-- C10: the generated presence test for a single-valued relation of a dict-backed
source reports the relation present if and only if the relation name is a key of
the dict and the stored value is not `None`; an absent key and a key explicitly set
to `None` are both reported absent. -/
theorem c10_dict_single_relation_present_iff :
    ∀ (d : PyDict) (rel : String),
      isSingleRelationPresentDict d rel = true ↔
        ∃ v, alget d rel = some v ∧ v ≠ PyVal.scalar Scalar.none := by
  intro d rel
  unfold isSingleRelationPresentDict
  cases h : alget d rel with
  | none => simp
  | some v =>
    cases v with
    | scalar s =>
      cases s with
      | none => simp [pyIsNone]
      | int n => simp [pyIsNone]
      | str s => simp [pyIsNone]
    | tup vs => simp [pyIsNone]
    | pylist vs => simp [pyIsNone]
    | dict es => simp [pyIsNone]

/-- C7 counterexample: a multi-valued relation whose schema collection class is
neither `list` nor `set` does NOT make plan construction fail — going through
`SQLATypeSupport.relation_copy`, the unrecognized class is silently resolved to
`list` and code generation succeeds with the `append` insertion, so no
"unrecognized collection type" error is raised. -/
theorem c7_counterexample_unrecognized_kind_does_not_fail :
    relationCopyInsertOp CollectionClass.other = Except.ok InsertOp.append ∧
    relationCopyInsertOp CollectionClass.other ≠
      Except.error "Unrecognized collection type" := by
  exact ⟨rfl, fun h => nomatch h⟩

/-- C7 (amended): `gen_merge_relation_sqla` itself raises the fatal
"Unrecognized collection type" error at code-generation time when invoked with a
collection class that is neither `list` nor `set`; but `SQLATypeSupport.relation_copy`
resolves every schema collection kind other than `set` to `list` before calling it,
so through plan construction an unrecognized kind is silently treated as the ordered
kind.  For recognized kinds, insertion is order-preserving `append` for lists and
`add` for sets. -/
theorem c7_amended_collection_kind_dispatch :
    genMergeInsertOp CollectionClass.list = Except.ok InsertOp.append ∧
    genMergeInsertOp CollectionClass.set = Except.ok InsertOp.add ∧
    genMergeInsertOp CollectionClass.other = Except.error "Unrecognized collection type" ∧
    relationCopyResolveClass CollectionClass.other = CollectionClass.list ∧
    relationCopyResolveClass CollectionClass.set = CollectionClass.set ∧
    relationCopyInsertOp CollectionClass.other = Except.ok InsertOp.append := by
  exact ⟨rfl, rfl, rfl, rfl, rfl, rfl⟩

/-! ### Key-based relation reconciliation into an entity-backed destination

`gen_merge_relation_sqla` of `src/montgomery/type_support.py` (lines 32-125) — the
same algorithm as `gen_merge_relation_sqla2` of `src/pyxfer/type_support.py`
(lines 63-197) — generates:

    dest_inst_keys = dict()
    for item in dest_rel:
        dest_inst_keys[item.key] = item
    for item in src_rel:
        key = item.key
        if key in dest_inst_keys:
            serialize(item, dest_inst_keys[key])      # in-place update
            del dest_inst_keys[key]
        else:
            s = serialize(item, None)                 # creation
            session.add(s)
            dest_rel.append(s)        # .add(s) for a set-kind collection
    for inst in dest_inst_keys.values():
        dest_rel.remove(inst)                         # removal by absence

(`pyxfer`'s variant passes `peek(item, cache)` instead of `None` for the creation
case; `peek` returns `None` for any source item without a `__PYX_REUSE` entry.)
We embed it for a list-kind collection over elements with an integer key, a scalar
data field and an object identity.
-/

/-- A source collection element: its key field and its remaining data. -/
structure SrcElem where
  key : Int
  data : Int
deriving DecidableEq, Repr

/-- A destination collection element: a Python object with an identity `ident`
(standing for `id(obj)`), a key field and its remaining data. -/
structure DstElem where
  ident : Nat
  key : Int
  data : Int
deriving DecidableEq, Repr

/-- Modelled from the spec: the child serializer invoked with an existing
destination element (§4.3 step 3) reuses that object and copies the source's
fields into it — identity preserved, fields updated. -/
def childMergeInto (s : SrcElem) (e : DstElem) : DstElem :=
  { ident := e.ident, key := s.key, data := s.data }

/-- Modelled from the spec: the child serializer invoked with no existing
destination element (§4.3 step 3) creates a fresh object and copies the source's
fields into it; `fresh` is the new object's identity. -/
def childCreate (s : SrcElem) (fresh : Nat) : DstElem :=
  ⟨fresh, s.key, s.data⟩

/-- Mutating the object with identity `i` inside the destination collection
(the collection holds references, so an in-place update is visible through it). -/
def updateInPlace (l : List DstElem) (i : Nat) (f : DstElem → DstElem) : List DstElem :=
  l.map fun e => if e.ident = i then f e else e

/-- Python `list.remove(obj)`: drop the first element equal to `obj`
(object equality here is identity). -/
def removeFirstDst : List DstElem → Nat → List DstElem
  | [], _ => []
  | e :: rest, i => if e.ident = i then rest else e :: removeFirstDst rest i

/-- The pre-pass of the generated merge code: `dest_inst_keys[item.key] = item`
for every element of the destination collection (later entries overwrite earlier
ones with the same key, as in a Python dict). -/
def buildDestInstKeys (dst : List DstElem) : List (Int × DstElem) :=
  dst.foldl (fun m e => alset m e.key e) []

/-- The source loop of the generated merge code: matched source elements update
the existing destination element in place (and mark its key treated), unmatched
ones are serialized into fresh objects and appended to the collection. -/
def mergeSqla2Loop :
    List SrcElem → List (Int × DstElem) → List DstElem → Nat →
      List (Int × DstElem) × List DstElem × Nat
  | [], m, dst, fresh => (m, dst, fresh)
  | s :: rest, m, dst, fresh =>
    match alget m s.key with
    | some e => mergeSqla2Loop rest (aldel m s.key) (updateInPlace dst e.ident (childMergeInto s)) fresh
    | Option.none => mergeSqla2Loop rest m (dst ++ [childCreate s fresh]) (fresh + 1)

/-- The removal pass of the generated merge code: every destination element whose
key was not matched by any source element is removed from the collection. -/
def removeRemaining (m : List (Int × DstElem)) (dst : List DstElem) : List DstElem :=
  m.foldl (fun acc kv => removeFirstDst acc kv.2.ident) dst

/-- The full generated key-diff reconciliation (list-kind collection): pre-pass,
source loop, removal pass.  `fresh` seeds the identities of newly created
destination objects. -/
def genMergeRelationSqla2Run (src : List SrcElem) (dst : List DstElem) (fresh : Nat) :
    List DstElem × Nat :=
  let r := mergeSqla2Loop src (buildDestInstKeys dst) dst fresh
  (removeRemaining r.1 r.2.1, r.2.2)

/-! ### Wholesale relation copies for map-backed and plain-object destinations

`DictTypeSupport.relation_copy` (`src/pyxfer/type_support.py` lines 418-439) generates

    dest['rel'] = []
    for item in source['rel']:
        dest['rel'].append( serialize(item, None))

and `ObjectTypeSupport.relation_copy` (lines 542-564) generates

    dest.rel.clear()
    for item in source.rel:
        dest.rel.append( serialize(item, None))

Neither consults the existing destination collection.
-/

/-- The loop shared by both wholesale relation copies: serialize every source item
with no existing destination (`serializer_call_code('item', None)`), threading the
run state, and collect the results in order. -/
def relationCopyLoop (child : PyVal → σ → PyVal × σ) : List PyVal → σ → List PyVal × σ
  | [], st => ([], st)
  | v :: rest, st =>
    let r := child v st
    let r2 := relationCopyLoop child rest r.2
    (r.1 :: r2.1, r2.2)

/-- The generated code of `DictTypeSupport.relation_copy`: the destination dict's
relation entry is reset to a fresh empty list, then the serialized source elements
are appended; the previous value under `relation_name` is never consulted. -/
def relationCopyDictRun (child : PyVal → σ → PyVal × σ) (dest : PyDict)
    (relation_name : String) (srcItems : List PyVal) (st : σ) : PyDict × σ :=
  let emptied := alset dest relation_name (PyVal.pylist [])
  let r := relationCopyLoop child srcItems st
  (alset emptied relation_name (PyVal.pylist r.1), r.2)

/-- The generated code of `ObjectTypeSupport.relation_copy`: the destination
object's collection is cleared in place, then the serialized source elements are
appended; the collection's previous elements are never consulted. -/
def relationCopyObjectRun (child : PyVal → σ → PyVal × σ) (destPrior : List PyVal)
    (srcItems : List PyVal) (st : σ) : List PyVal × σ :=
  let cleared : List PyVal := []
  let r := relationCopyLoop child srcItems st
  (cleared ++ r.1, r.2)

/-! ### The `{A,B,C}` vs `{A,C,D}` reconciliation scenario -/

/-- Helper: running the generated key-diff reconciliation with destination keys
`a, b, c` and source keys `a, c, d` updates `a` and `c` in place (same identity),
creates `d` fresh, and removes `b`. -/
theorem mergeScenarioACD (a b c d da db dc sa sc sd : Int) (i1 i2 i3 fresh : Nat)
    (hab : a ≠ b) (hac : a ≠ c) (had : a ≠ d) (hbc : b ≠ c) (hbd : b ≠ d) (hcd : c ≠ d)
    (h12 : i1 ≠ i2) (h13 : i1 ≠ i3) (h23 : i2 ≠ i3) :
    genMergeRelationSqla2Run [⟨a, sa⟩, ⟨c, sc⟩, ⟨d, sd⟩]
        [⟨i1, a, da⟩, ⟨i2, b, db⟩, ⟨i3, c, dc⟩] fresh =
      ([⟨i1, a, sa⟩, ⟨i3, c, sc⟩, ⟨fresh, d, sd⟩], fresh + 1) := by
  simp [genMergeRelationSqla2Run, mergeSqla2Loop, buildDestInstKeys, alset, alget, aldel,
    updateInPlace, childMergeInto, childCreate, removeRemaining, removeFirstDst,
    hab, hac, had, hbc, hbd, hcd, h12, h13, h23,
    Ne.symm h12, Ne.symm h13, Ne.symm h23]

/-- C2: merging a source collection with keys `{A,C,D}` into an existing
entity-backed destination collection with keys `{A,B,C}` yields a destination
collection with key set `{A,C,D}`, where the elements for `A` and `C` are the very
same destination objects as before (identities `i1`, `i3` preserved, fields updated
in place), the element for `D` is newly created (fresh identity), and the element
for `B` has been removed. -/
theorem c2_reconciliation_ACD (a b c d da db dc sa sc sd : Int) (i1 i2 i3 fresh : Nat)
    (hab : a ≠ b) (hac : a ≠ c) (had : a ≠ d) (hbc : b ≠ c) (hbd : b ≠ d) (hcd : c ≠ d)
    (h12 : i1 ≠ i2) (h13 : i1 ≠ i3) (h23 : i2 ≠ i3)
    (hf1 : fresh ≠ i1) (hf2 : fresh ≠ i2) (hf3 : fresh ≠ i3) :
    (genMergeRelationSqla2Run [⟨a, sa⟩, ⟨c, sc⟩, ⟨d, sd⟩]
        [⟨i1, a, da⟩, ⟨i2, b, db⟩, ⟨i3, c, dc⟩] fresh).1 =
      [⟨i1, a, sa⟩, ⟨i3, c, sc⟩, ⟨fresh, d, sd⟩] ∧
    ((genMergeRelationSqla2Run [⟨a, sa⟩, ⟨c, sc⟩, ⟨d, sd⟩]
        [⟨i1, a, da⟩, ⟨i2, b, db⟩, ⟨i3, c, dc⟩] fresh).1.map DstElem.key = [a, c, d]) ∧
    ((genMergeRelationSqla2Run [⟨a, sa⟩, ⟨c, sc⟩, ⟨d, sd⟩]
        [⟨i1, a, da⟩, ⟨i2, b, db⟩, ⟨i3, c, dc⟩] fresh).1.map DstElem.ident =
      [i1, i3, fresh]) ∧
    i2 ∉ [i1, i3, fresh] := by
  rw [mergeScenarioACD a b c d da db dc sa sc sd i1 i2 i3 fresh
    hab hac had hbc hbd hcd h12 h13 h23]
  refine ⟨rfl, rfl, rfl, ?_⟩
  simp [Ne.symm h12, h23, Ne.symm hf2]

/-- C2 witness: the scenario at concrete keys `A=1, B=2, C=3, D=4`, destination
identities `10, 11, 12` and fresh identity `13`. -/
theorem c2_reconciliation_ACD_witness :
    (genMergeRelationSqla2Run [⟨1, 100⟩, ⟨3, 300⟩, ⟨4, 400⟩]
        [⟨10, 1, 7⟩, ⟨11, 2, 8⟩, ⟨12, 3, 9⟩] 13).1 =
      [⟨10, 1, 100⟩, ⟨12, 3, 300⟩, ⟨13, 4, 400⟩] ∧
    ((genMergeRelationSqla2Run [⟨1, 100⟩, ⟨3, 300⟩, ⟨4, 400⟩]
        [⟨10, 1, 7⟩, ⟨11, 2, 8⟩, ⟨12, 3, 9⟩] 13).1.map DstElem.key = [1, 3, 4]) ∧
    ((genMergeRelationSqla2Run [⟨1, 100⟩, ⟨3, 300⟩, ⟨4, 400⟩]
        [⟨10, 1, 7⟩, ⟨11, 2, 8⟩, ⟨12, 3, 9⟩] 13).1.map DstElem.ident = [10, 12, 13]) ∧
    (11 : Nat) ∉ [10, 12, 13] := by
  exact c2_reconciliation_ACD 1 2 3 4 7 8 9 100 300 400 10 11 12 13
    (by decide) (by decide) (by decide) (by decide) (by decide) (by decide)
    (by decide) (by decide) (by decide) (by decide) (by decide) (by decide)

/-! ### Association-list facts used throughout -/

theorem alget_cons_self [DecidableEq κ] (k : κ) (v : α) (m : List (κ × α)) :
    alget ((k, v) :: m) k = some v := by
  simp [alget]

theorem alget_cons_ne [DecidableEq κ] (k1 k : κ) (v1 : α) (m : List (κ × α)) (h : k1 ≠ k) :
    alget ((k1, v1) :: m) k = alget m k := by
  simp [alget, h]

theorem alget_alset_self [DecidableEq κ] (m : List (κ × α)) (k : κ) (v : α) :
    alget (alset m k v) k = some v := by
  induction m with
  | nil => simp [alset, alget]
  | cons kv rest ih =>
    obtain ⟨k1, v1⟩ := kv
    by_cases h : k1 = k
    · subst h; simp [alset, alget]
    · simp [alset, alget, h, ih]

theorem alget_alset_ne [DecidableEq κ] (m : List (κ × α)) (k k' : κ) (v : α) (h : k ≠ k') :
    alget (alset m k v) k' = alget m k' := by
  induction m with
  | nil => simp [alset, alget, h]
  | cons kv rest ih =>
    obtain ⟨k1, v1⟩ := kv
    by_cases h1 : k1 = k
    · subst h1; simp [alset, alget, h]
    · simp only [alset, if_neg h1]
      by_cases h2 : k1 = k'
      · subst h2; simp [alget]
      · simp [alget, h2, ih]

theorem alset_append_of_none [DecidableEq κ] (m : List (κ × α)) (k : κ) (v : α)
    (h : alget m k = Option.none) : alset m k v = m ++ [(k, v)] := by
  induction m with
  | nil => simp [alset]
  | cons kv rest ih =>
    obtain ⟨k1, v1⟩ := kv
    by_cases h1 : k1 = k
    · subst h1; simp [alget] at h
    · simp only [alget, if_neg h1] at h
      simp [alset, h1, ih h]

/-! ### The concrete schema of `src/test.py` — source side (SQLAlchemy entities)

`Operation(operation_id, name)`, `OrderPart(order_part_id, order_id, name,
operation_id, operation → Operation)`, `Order(order_id, parts → [OrderPart])`.
Only `String`-class and `Integer`-instance columns survive the adapter's field
filter, so `Order.start_date` (`Date`) and `Order.cost` (`Float`) are not part of
the emitted fields.  `ident` stands for the CPython object identity `id(obj)`;
two entities are the same Python object exactly when their `ident`s coincide. -/

structure OperationS where
  ident : Nat
  operation_id : PyVal
  name : PyVal

structure OrderPartS where
  ident : Nat
  order_part_id : PyVal
  order_id : PyVal
  name : PyVal
  operation_id : PyVal
  operation : Option OperationS

structure OrderS where
  ident : Nat
  order_id : PyVal
  parts : List OrderPartS

/-- The serialize-direction run state: the run-scoped cache of
`serialize_*_to_dict`, mapping `id(source)` (montgomery
`SQLATypeSupport.cache_on_read`: `cache_key = id(source)`) to the short-form dict
stored by `SQLADictTypeSupport.cache_on_write`. -/
structure SState where
  cache : List (Nat × PyDict)

/-- Key-field names of the three mappers (their primary keys). -/
def operationKeyNames : List String := ["operation_id"]

def orderPartKeyNames : List String := ["order_part_id"]

def orderKeyNames : List String := ["order_id"]

/-- The generated serializer `serialize_Operation_Operation_to_dict`.

Skeleton modelled from the spec (§4.3; `pyxfer/pyxfer.py` is not among the given
sources); the fragments are from the sources: the identity-keyed cache read is
montgomery `SQLATypeSupport.cache_on_read` (`cache_key = id(source); if cache_key
in cache: return cache[cache_key]`), the field copies are the dict-destination
`gen_write_field`, and the cache write is pyxfer `SQLADictTypeSupport.cache_on_write`:

    zulu = ('Operation', source.operation_id)
    if any(zulu[1:]):
        cache[cache_key] = { '__PYX_REUSE' : zulu[1:] }
    else:
        cache[cache_key] = { '__PYX_REUSE' : id(source), 'operation_id' : source.operation_id }
        dest['__PYXID'] = id(source)
-/
def serialize_Operation_Operation_to_dict (source : OperationS) (dest : Option PyDict)
    (st : SState) : PyDict × SState :=
  match alget st.cache source.ident with
  | some cached => (cached, st)
  | Option.none =>
    let d := dest.getD []
    let d := alset d "operation_id" source.operation_id
    let d := alset d "name" source.name
    let zuluTail : List PyVal := [source.operation_id]
    if zuluTail.any pyTruthy then
      let shortForm : PyDict := [("__PYX_REUSE", PyVal.tup zuluTail)]
      (d, { st with cache := alset st.cache source.ident shortForm })
    else
      let shortForm : PyDict :=
        [("__PYX_REUSE", PyVal.scalar (.int source.ident)),
         ("operation_id", source.operation_id)]
      (alset d "__PYXID" (PyVal.scalar (.int source.ident)),
       { st with cache := alset st.cache source.ident shortForm })

/-- The generated serializer `serialize_OrderPart_OrderPart_to_dict` (field control
`{'order': SKIP}`, so the single-valued relation `operation` is recursed).
Skeleton modelled from the spec (§4.2 step 4, §4.3): after the scalar fields and
the cache write, if the source side reports the relation present
(`SQLATypeSupport.gen_is_single_relation_present` generates `source.operation`,
i.e. Python truthiness — non-`None`), the child serializer is invoked with the
destination's existing related instance, if any, and its result is written into
the destination relation. -/
def serialize_OrderPart_OrderPart_to_dict (source : OrderPartS) (dest : Option PyDict)
    (st : SState) : PyDict × SState :=
  match alget st.cache source.ident with
  | some cached => (cached, st)
  | Option.none =>
    let d := dest.getD []
    let d := alset d "order_part_id" source.order_part_id
    let d := alset d "order_id" source.order_id
    let d := alset d "name" source.name
    let d := alset d "operation_id" source.operation_id
    let zuluTail : List PyVal := [source.order_part_id]
    let r :=
      if zuluTail.any pyTruthy then
        let shortForm : PyDict := [("__PYX_REUSE", PyVal.tup zuluTail)]
        (d, { st with cache := alset st.cache source.ident shortForm })
      else
        let shortForm : PyDict :=
          [("__PYX_REUSE", PyVal.scalar (.int source.ident)),
           ("order_part_id", source.order_part_id)]
        (alset d "__PYXID" (PyVal.scalar (.int source.ident)),
         { st with cache := alset st.cache source.ident shortForm })
    let d := r.1
    let st1 := r.2
    match source.operation with
    | some op =>
      let existing := match alget d "operation" with
        | some (PyVal.dict es) => some es
        | _ => Option.none
      let rr := serialize_Operation_Operation_to_dict op existing st1
      (alset d "operation" (PyVal.dict rr.1), rr.2)
    | Option.none => (d, st1)

/-- The loop of `DictTypeSupport.relation_copy` for the `parts` relation:
`for item in source.parts: dest['parts'].append( serialize_OrderPart(item, None))`. -/
def serializePartsLoop : List OrderPartS → SState → List PyVal × SState
  | [], st => ([], st)
  | p :: rest, st =>
    let r := serialize_OrderPart_OrderPart_to_dict p Option.none st
    let r2 := serializePartsLoop rest r.2
    (PyVal.dict r.1 :: r2.1, r2.2)

/-- The generated serializer `serialize_Order_Order_to_dict` (field control
`{'parts': child serializer}`): scalar fields (only `order_id` survives the field
filter), the cache write, then `DictTypeSupport.relation_copy` for `parts`
(`dest['parts'] = []` followed by appending the serialized source elements —
the existing destination value of `parts` is never consulted). -/
def serialize_Order_Order_to_dict (source : OrderS) (dest : Option PyDict)
    (st : SState) : PyDict × SState :=
  match alget st.cache source.ident with
  | some cached => (cached, st)
  | Option.none =>
    let d := dest.getD []
    let d := alset d "order_id" source.order_id
    let zuluTail : List PyVal := [source.order_id]
    let r :=
      if zuluTail.any pyTruthy then
        let shortForm : PyDict := [("__PYX_REUSE", PyVal.tup zuluTail)]
        (d, { st with cache := alset st.cache source.ident shortForm })
      else
        let shortForm : PyDict :=
          [("__PYX_REUSE", PyVal.scalar (.int source.ident)),
           ("order_id", source.order_id)]
        (alset d "__PYXID" (PyVal.scalar (.int source.ident)),
         { st with cache := alset st.cache source.ident shortForm })
    let d := r.1
    let st1 := r.2
    let d := alset d "parts" (PyVal.pylist [])
    let rp := serializePartsLoop source.parts st1
    (alset d "parts" (PyVal.pylist rp.1), rp.2)

/-! ### The concrete schema — destination side (deserializing dicts into entities)

Destination entities live in a heap (`ident → state`) so that Python object
identity and in-place mutation are represented faithfully; collections and
relations hold `ident` references.  New entities' fields default to `None`
(SQLAlchemy column attributes before a flush). -/

structure OperationD where
  operation_id : PyVal := PyVal.scalar Scalar.none
  name : PyVal := PyVal.scalar Scalar.none

structure OrderPartD where
  order_part_id : PyVal := PyVal.scalar Scalar.none
  order_id : PyVal := PyVal.scalar Scalar.none
  name : PyVal := PyVal.scalar Scalar.none
  operation_id : PyVal := PyVal.scalar Scalar.none
  operation : Option Nat := Option.none

structure OrderD where
  order_id : PyVal := PyVal.scalar Scalar.none
  parts : List Nat := []

/-- A destination entity (heap cell contents). -/
inductive Ent where
  | op (o : OperationD)
  | part (p : OrderPartD)
  | order (o : OrderD)

/-- A deserialize-direction cache key: the tuple built by
`SQLADictTypeSupport.cache_key` — the type tag followed by scalar components. -/
abbrev CKey := List Scalar

/-- The deserialize-direction run state: the heap of destination entities, the
next fresh object identity, the SQLAlchemy session contents (in insertion order),
and the run-scoped cache mapping cache keys to destination instances. -/
structure DState where
  heap : List (Nat × Ent)
  next : Nat
  session : List Nat
  cache : List (CKey × Nat)

/-- `id(obj)`-style scalar coercion: the scalar behind a value, if any. -/
def asScalar : PyVal → Option Scalar
  | .scalar s => some s
  | _ => Option.none

def asScalarList (vs : List PyVal) : Option (List Scalar) :=
  vs.mapM asScalar

/-- The generated cache-key computation of `SQLADictTypeSupport.cache_key`
(`src/pyxfer/type_support.py` lines 621-671):

    if '__PYX_REUSE' in source:
        v = source['__PYX_REUSE']
        if type(v) in (list, tuple): key = (base,) + v
        else:                        key = (base, v)
    elif '__PYXID' in source:
        key = (base, source['__PYXID'])
    else:
        key = (base, source[k1], ..., source[kn])   # the key fields

A missing key field raises `KeyError`, a non-hashable component raises
`TypeError`; both are modelled as `Option.none`. -/
def sqlaDictCacheKey (cache_base_name : String) (key_names : List String)
    (source : PyDict) : Option CKey :=
  match alget source "__PYX_REUSE" with
  | some v =>
    match v with
    | .tup vs => (asScalarList vs).map (fun ss => Scalar.str cache_base_name :: ss)
    | .pylist vs => (asScalarList vs).map (fun ss => Scalar.str cache_base_name :: ss)
    | _ => (asScalar v).map (fun s => [Scalar.str cache_base_name, s])
  | Option.none =>
    match alget source "__PYXID" with
    | some v => (asScalar v).map (fun s => [Scalar.str cache_base_name, s])
    | Option.none => do
      let vals ← key_names.mapM (fun k => alget source k)
      let ss ← asScalarList vals
      some (Scalar.str cache_base_name :: ss)

/-! The generated `peek` helper of `SQLADictTypeSupport.gen_global_code`
(`src/pyxfer/type_support.py` lines 729-753):

    def peek( source, cache):
        if '__PYX_REUSE' in source:
            return cache.get( source['__PYX_REUSE'], None)
        else:
            return None

`peek` looks its argument up in the cache by raw Python value equality, so we
first need boolean equality of Python values. -/

mutual

def pyValBEq : PyVal → PyVal → Bool
  | .scalar a, .scalar b => a == b
  | .tup a, .tup b => pyValListBEq a b
  | .pylist a, .pylist b => pyValListBEq a b
  | .dict a, .dict b => pyValEntriesBEq a b
  | _, _ => false

/-- Elementwise equality of Python value lists (helper for `pyValBEq`). -/
def pyValListBEq : List PyVal → List PyVal → Bool
  | [], [] => true
  | a :: l1, b :: l2 => pyValBEq a b && pyValListBEq l1 l2
  | _, _ => false

/-- Elementwise equality of dict entry lists (helper for `pyValBEq`). -/
def pyValEntriesBEq : List (String × PyVal) → List (String × PyVal) → Bool
  | [], [] => true
  | (k1, v1) :: l1, (k2, v2) :: l2 => k1 == k2 && pyValBEq v1 v2 && pyValEntriesBEq l1 l2
  | _, _ => false

end

/-- `cache.get(v, None)` for a cache keyed by arbitrary Python values. -/
def pyAlGet : List (PyVal × Nat) → PyVal → Option Nat
  | [], _ => Option.none
  | (k, n) :: rest, v => if pyValBEq k v then some n else pyAlGet rest v

def peek (source : PyDict) (cache : List (PyVal × Nat)) : Option Nat :=
  match alget source "__PYX_REUSE" with
  | some v => pyAlGet cache v
  | Option.none => Option.none

/-! #### Heap and session plumbing -/

def heapGetOp (st : DState) (i : Nat) : Option OperationD :=
  match alget st.heap i with
  | some (.op o) => some o
  | _ => Option.none

def heapGetPart (st : DState) (i : Nat) : Option OrderPartD :=
  match alget st.heap i with
  | some (.part p) => some p
  | _ => Option.none

def heapGetOrder (st : DState) (i : Nat) : Option OrderD :=
  match alget st.heap i with
  | some (.order o) => some o
  | _ => Option.none

/-- In-place mutation of the entity with identity `i`. -/
def heapSet (st : DState) (i : Nat) (e : Ent) : DState :=
  { st with heap := alset st.heap i e }

/-- `_sqla_session_add( session, T())` (generated by
`SQLATypeSupport.gen_create_instance`): construct a fresh instance with a fresh
identity and add it to the session; the instance is returned. -/
def createEnt (e : Ent) (st : DState) : Nat × DState :=
  (st.next,
   { heap := alset st.heap st.next e, next := st.next + 1,
     session := st.session ++ [st.next], cache := st.cache })

/-- Constructor tag of an entity (entities of different mapped classes never
merge with one another). -/
def entKindIdx : Ent → Nat
  | .op _ => 0
  | .part _ => 1
  | .order _ => 2

/-- The primary-key field value of an entity. -/
def entPK : Ent → PyVal
  | .op o => o.operation_id
  | .part p => p.order_part_id
  | .order o => o.order_id

/-- Modelled from the spec: `check_instance_serializer` emits
`dest = session.merge(dest)`; `session.merge` belongs to SQLAlchemy, an external
collaborator (§4.1 `finalizeInstance`, §4.3 step 6, §1 scope).  We model it as:
scan the session in insertion order for the first instance of the same mapped
class whose (truthy, scalar) primary key equals `dest`'s; copy `dest`'s state
into it and return it.  When there is none, or the key is unset, the instance
itself — which creation has already added to the session — is returned. -/
def sessionMerge (i : Nat) (st : DState) : Nat × DState :=
  match alget st.heap i with
  | Option.none => (i, st)
  | some e =>
    match asScalar (entPK e) with
    | Option.none => (i, st)
    | some pk =>
      if pyTruthyScalar pk then
        match st.session.find? (fun j =>
          match alget st.heap j with
          | some e2 => entKindIdx e2 == entKindIdx e && asScalar (entPK e2) == some pk
          | Option.none => false) with
        | some j => if j = i then (i, st) else (j, heapSet st j e)
        | Option.none => (i, { st with session := st.session ++ [i] })
      else (i, st)

/-! #### The generated deserializers (dict → SQLAlchemy) -/

/-- The generated serializer `serialize_Operation_dict_to_Operation`.
Skeleton modelled from the spec (§4.3): compute the cache key
(`SQLADictTypeSupport.cache_key`), return the cached instance on a hit
(deduplication), otherwise reuse the supplied destination or create one
(`_sqla_session_add(session, Operation())`), insert into the cache before any
relation work (§4.3 step 4), copy the scalar fields, and finalize with
`dest = session.merge(dest)` (`SQLATypeSupport.check_instance_serializer`).
A missing dict field raises `KeyError`, modelled as `Option.none`. -/
def serialize_Operation_dict_to_Operation (source : PyDict) (dest : Option Nat)
    (st : DState) : Option (Nat × DState) := do
  let cache_key ← sqlaDictCacheKey "Operation" operationKeyNames source
  match alget st.cache cache_key with
  | some inst => some (inst, st)
  | Option.none =>
    let r := match dest with
      | some i => (i, st)
      | Option.none => createEnt (.op {}) st
    let i := r.1
    let st1 := { r.2 with cache := alset r.2.cache cache_key r.1 }
    let o ← heapGetOp st1 i
    let v1 ← alget source "operation_id"
    let v2 ← alget source "name"
    let st2 := heapSet st1 i (.op { o with operation_id := v1, name := v2 })
    some (sessionMerge i st2)

/-- The generated serializer `serialize_OrderPart_dict_to_OrderPart` (field
control `{'order': SKIP}`).  Skeleton modelled from the spec (§4.3, §4.2 step 4);
the single-valued-relation presence test is the generated
`('operation' in source and source['operation'] is not None)`
(`DictTypeSupport.gen_is_single_relation_present`), and the child serializer
receives the destination's existing related instance, if any. -/
def serialize_OrderPart_dict_to_OrderPart (source : PyDict) (dest : Option Nat)
    (st : DState) : Option (Nat × DState) := do
  let cache_key ← sqlaDictCacheKey "OrderPart" orderPartKeyNames source
  match alget st.cache cache_key with
  | some inst => some (inst, st)
  | Option.none =>
    let r := match dest with
      | some i => (i, st)
      | Option.none => createEnt (.part {}) st
    let i := r.1
    let st1 := { r.2 with cache := alset r.2.cache cache_key r.1 }
    let p ← heapGetPart st1 i
    let v1 ← alget source "order_part_id"
    let v2 ← alget source "order_id"
    let v3 ← alget source "name"
    let v4 ← alget source "operation_id"
    let st2 := heapSet st1 i
      (.part { p with order_part_id := v1, order_id := v2, name := v3, operation_id := v4 })
    let st3 ←
      if isSingleRelationPresentDict source "operation" then do
        let opVal ← alget source "operation"
        let opDict ← (match opVal with | PyVal.dict es => some es | _ => Option.none)
        let existing := (heapGetPart st2 i).bind OrderPartD.operation
        let rr ← serialize_Operation_dict_to_Operation opDict existing st2
        let q ← heapGetPart rr.2 i
        some (heapSet rr.2 i (.part { q with operation := some rr.1 }))
      else
        some st2
    some (sessionMerge i st3)

/-- The loop body of the generated `gen_merge_relation_sqla`
(`src/pyxfer/type_support.py` lines 10-61), for the list-kind `parts` relation of
a dict→`Order` serializer:

    used = set()
    for item in source['parts']:
        rck = <SQLADictTypeSupport.cache_key of item>
        dest_item = cache.get( rck, None)
        dest_item2 = serialize_OrderPart_dict_to_OrderPart( item, dest_item, session, cache)
        if dest_item is None:
            dest.parts.append( dest_item2)
        used.add( dest_item2)
-/
def mergePartsLoop (orderI : Nat) : List PyVal → List Nat → DState →
    Option (List Nat × DState)
  | [], used, st => some (used, st)
  | it :: rest, used, st => do
    let itemD ← (match it with | PyVal.dict es => some es | _ => Option.none)
    let rck ← sqlaDictCacheKey "OrderPart" orderPartKeyNames itemD
    let dest_item := alget st.cache rck
    let rr ← serialize_OrderPart_dict_to_OrderPart itemD dest_item st
    let st1 ←
      match dest_item with
      | Option.none => do
        let o ← heapGetOrder rr.2 orderI
        some (heapSet rr.2 orderI (.order { o with parts := o.parts ++ [rr.1] }))
      | some _ => some rr.2
    mergePartsLoop orderI rest (used ++ [rr.1]) st1

/-- First-occurrence deduplication (Python `set(...)` membership collapse). -/
def pyDedupGo (seen : List Nat) : List Nat → List Nat
  | [] => []
  | x :: xs => if x ∈ seen then pyDedupGo seen xs else x :: pyDedupGo (x :: seen) xs

def pyDedupNat (l : List Nat) : List Nat :=
  pyDedupGo [] l

/-- Python `list.remove(obj)`: drop the first occurrence. -/
def removeFirstNat : List Nat → Nat → List Nat
  | [], _ => []
  | x :: xs, y => if x = y then xs else x :: removeFirstNat xs y

/-- The removal pass of the generated `gen_merge_relation_sqla`:

    for item in set(dest.parts) - used:
        dest.parts.remove(item)

Python's set iteration order is implementation-defined; we iterate the distinct
elements in first-appearance order (the final collection does not depend on the
order when the collection holds each object at most once). -/
def removeUnusedParts (orderI : Nat) (used : List Nat) (st : DState) : Option DState := do
  let o ← heapGetOrder st orderI
  let toRemove := (pyDedupNat o.parts).filter (fun x => !(used.contains x))
  let newParts := toRemove.foldl removeFirstNat o.parts
  some (heapSet st orderI (.order { o with parts := newParts }))

/-- The generated serializer `serialize_Order_dict_to_Order` (field control
`{'parts': child serializer}`): cache read/write and scalar copy as for the other
deserializers, then `SQLATypeSupport.relation_copy` → `gen_merge_relation_sqla`
for the `parts` relation (list kind), and finally `session.merge`. -/
def serialize_Order_dict_to_Order (source : PyDict) (dest : Option Nat)
    (st : DState) : Option (Nat × DState) := do
  let cache_key ← sqlaDictCacheKey "Order" orderKeyNames source
  match alget st.cache cache_key with
  | some inst => some (inst, st)
  | Option.none =>
    let r := match dest with
      | some i => (i, st)
      | Option.none => createEnt (.order {}) st
    let i := r.1
    let st1 := { r.2 with cache := alset r.2.cache cache_key r.1 }
    let o ← heapGetOrder st1 i
    let v1 ← alget source "order_id"
    let st2 := heapSet st1 i (.order { o with order_id := v1 })
    let partsV ← alget source "parts"
    let items ← (match partsV with | PyVal.pylist vs => some vs | _ => Option.none)
    let rr ← mergePartsLoop i items [] st2
    let st3 ← removeUnusedParts i rr.1 rr.2
    some (sessionMerge i st3)

/-! ### The fixture of `src/test.py` (`Test.setUpClass`): one `Order` with two
`OrderPart`s sharing one `Operation`. -/

def opLazer : OperationS :=
  ⟨100, PyVal.scalar (.int 12), PyVal.scalar (.str "lazer cutting")⟩

def part1S : OrderPartS :=
  ⟨101, PyVal.scalar (.int 1), PyVal.scalar (.int 1), PyVal.scalar (.str "Part One"),
   PyVal.scalar (.int 12), some opLazer⟩

def part2S : OrderPartS :=
  ⟨102, PyVal.scalar (.int 2), PyVal.scalar (.int 1), PyVal.scalar (.str "Part Two"),
   PyVal.scalar (.int 12), some opLazer⟩

def orderTestS : OrderS := ⟨103, PyVal.scalar (.int 1), [part1S, part2S]⟩

/-- The dict produced by serializing the fixture order in one run with one
(initially empty) cache. -/
def serializedOrderDict : PyDict :=
  (serialize_Order_Order_to_dict orderTestS Option.none ⟨[]⟩).1

/-- The full-fields first occurrence of the shared `Operation` in the output. -/
def opFullOccurrence : PyDict :=
  [("operation_id", PyVal.scalar (.int 12)), ("name", PyVal.scalar (.str "lazer cutting"))]

/-- The short-form second occurrence of the shared `Operation` in the output:
a dict containing only the reuse key. -/
def opShortOccurrence : PyDict :=
  [("__PYX_REUSE", PyVal.tup [PyVal.scalar (.int 12)])]

/-- Deserializing the serialized fixture back, in a fresh run (fresh state, empty
session, empty cache). -/
def deserializedOrderRun : Option (Nat × DState) :=
  serialize_Order_dict_to_Order serializedOrderDict Option.none ⟨[], 0, [], []⟩

/-- The destination state produced by `deserializedOrderRun`. -/
def deserializedState : DState :=
  { heap := [(0, Ent.order { order_id := PyVal.scalar (.int 1), parts := [1, 3] }),
             (1, Ent.part { order_part_id := PyVal.scalar (.int 1),
                            order_id := PyVal.scalar (.int 1),
                            name := PyVal.scalar (.str "Part One"),
                            operation_id := PyVal.scalar (.int 12),
                            operation := some 2 }),
             (2, Ent.op { operation_id := PyVal.scalar (.int 12),
                          name := PyVal.scalar (.str "lazer cutting") }),
             (3, Ent.part { order_part_id := PyVal.scalar (.int 2),
                            order_id := PyVal.scalar (.int 1),
                            name := PyVal.scalar (.str "Part Two"),
                            operation_id := PyVal.scalar (.int 12),
                            operation := some 2 })],
    next := 4,
    session := [0, 1, 2, 3],
    cache := [([Scalar.str "Order", Scalar.int 1], 0),
              ([Scalar.str "OrderPart", Scalar.int 1], 1),
              ([Scalar.str "Operation", Scalar.int 12], 2),
              ([Scalar.str "OrderPart", Scalar.int 2], 3)] }

/-- How many `Operation` entities a destination state holds. -/
def countOps (st : DState) : Nat :=
  st.heap.countP (fun kv => match kv.2 with | Ent.op _ => true | _ => false)

/-- C4: serializing one `Order` whose two `OrderPart`s share one `Operation`, in a
single run with one cache, emits the `Operation` with its full fields on its first
occurrence and only the reuse key on its second occurrence; both occurrences
resolve to the same cache key; and deserializing the output back produces exactly
one `Operation` instance (heap cell 2), referenced by both parts — not two. -/
theorem c4_shared_operation_serialized_once_and_round_trips :
    serializedOrderDict =
      [("order_id", PyVal.scalar (.int 1)),
       ("parts", PyVal.pylist
         [PyVal.dict
            [("order_part_id", PyVal.scalar (.int 1)),
             ("order_id", PyVal.scalar (.int 1)),
             ("name", PyVal.scalar (.str "Part One")),
             ("operation_id", PyVal.scalar (.int 12)),
             ("operation", PyVal.dict opFullOccurrence)],
          PyVal.dict
            [("order_part_id", PyVal.scalar (.int 2)),
             ("order_id", PyVal.scalar (.int 1)),
             ("name", PyVal.scalar (.str "Part Two")),
             ("operation_id", PyVal.scalar (.int 12)),
             ("operation", PyVal.dict opShortOccurrence)]])] ∧
    sqlaDictCacheKey "Operation" operationKeyNames opShortOccurrence =
      some [Scalar.str "Operation", Scalar.int 12] ∧
    sqlaDictCacheKey "Operation" operationKeyNames opFullOccurrence =
      some [Scalar.str "Operation", Scalar.int 12] ∧
    deserializedOrderRun = some (0, deserializedState) ∧
    (heapGetOrder deserializedState 0).map OrderD.parts = some [1, 3] ∧
    (heapGetPart deserializedState 1).map OrderPartD.operation = some (some 2) ∧
    (heapGetPart deserializedState 3).map OrderPartD.operation = some (some 2) ∧
    countOps deserializedState = 1 := by
  exact ⟨rfl, rfl, rfl, rfl, rfl, rfl, rfl, rfl⟩

/-! ### C1 — the run-scoped deduplication cache -/

/-- `session.merge` never touches the run-scoped cache. -/
theorem sessionMerge_cache (i : Nat) (st : DState) :
    (sessionMerge i st).2.cache = st.cache := by
  unfold sessionMerge
  split
  · rfl
  · split
    · rfl
    · split
      · split
        · split <;> rfl
        · rfl
      · rfl

/-- If `session.merge` returned `(i, st2)`, the resulting run state has the same
cache as the state it was given. -/
theorem sessionMerge_eq_cache {i0 i : Nat} {X st2 : DState}
    (h : sessionMerge i0 X = (i, st2)) : st2.cache = X.cache := by
  have h2 := sessionMerge_cache i0 X
  rw [h] at h2
  exact h2

/-- C1: within one run sharing one cache, a source object is transformed at most
once.  Entity-backed sources are recognized by identity (`cache_key = id(source)`,
montgomery `SQLATypeSupport.cache_on_read`): if the identity is cached, the
serializer returns the cached destination unchanged, without touching the state
(no fields re-copied), and after any invocation the identity is cached.
Dict-backed sources are recognized by the key/surrogate-token cache key
(`SQLADictTypeSupport.cache_key`): if that key is cached, the generated
deserializer returns the cached destination instance unchanged, and after any
successful invocation the key is cached. -/
theorem c1_repeated_source_not_retransformed :
    (∀ (source : OperationS) (dest : Option PyDict) (st : SState) (cached : PyDict),
        alget st.cache source.ident = some cached →
        serialize_Operation_Operation_to_dict source dest st = (cached, st)) ∧
    (∀ (source : OperationS) (dest : Option PyDict) (st : SState),
        (alget (serialize_Operation_Operation_to_dict source dest st).2.cache
          source.ident).isSome = true) ∧
    (∀ (source : PyDict) (dest : Option Nat) (st : DState) (k : CKey) (inst : Nat),
        sqlaDictCacheKey "Operation" operationKeyNames source = some k →
        alget st.cache k = some inst →
        serialize_Operation_dict_to_Operation source dest st = some (inst, st)) ∧
    (∀ (source : PyDict) (dest : Option Nat) (st : DState) (k : CKey) (i : Nat) (st2 : DState),
        sqlaDictCacheKey "Operation" operationKeyNames source = some k →
        serialize_Operation_dict_to_Operation source dest st = some (i, st2) →
        (alget st2.cache k).isSome = true) := by
  refine ⟨?_, ?_, ?_, ?_⟩
  · intro source dest st cached h
    unfold serialize_Operation_Operation_to_dict
    simp [h]
  · intro source dest st
    unfold serialize_Operation_Operation_to_dict
    cases h : alget st.cache source.ident with
    | some cached => simp [h]
    | none =>
      cases hz : ([source.operation_id].any pyTruthy) <;>
        simp [h, hz, alget_alset_self]
  · intro source dest st k inst h1 h2
    unfold serialize_Operation_dict_to_Operation
    simp [h1, h2]
  · intro source dest st k i st2 h1 h2
    unfold serialize_Operation_dict_to_Operation at h2
    rw [h1] at h2
    simp only [Option.bind_eq_bind, Option.some_bind] at h2
    cases hc : alget st.cache k with
    | some inst =>
      simp only [hc] at h2
      injection h2 with h2'
      injection h2' with hi hst
      rw [← hst, hc]
      rfl
    | none =>
      simp only [hc] at h2
      rw [Option.bind_eq_some] at h2
      obtain ⟨o, ho, h2⟩ := h2
      rw [Option.bind_eq_some] at h2
      obtain ⟨v1, hv1, h2⟩ := h2
      rw [Option.bind_eq_some] at h2
      obtain ⟨v2, hv2, h2⟩ := h2
      injection h2 with h2'
      have hc2 := sessionMerge_eq_cache h2'
      rw [hc2]
      simp [heapSet, alget_alset_self]

/-- C1 witness: concrete cache hits on both directions. -/
theorem c1_repeated_source_not_retransformed_witness :
    serialize_Operation_Operation_to_dict opLazer Option.none
        ⟨[(100, opShortOccurrence)]⟩ = (opShortOccurrence, ⟨[(100, opShortOccurrence)]⟩) ∧
    serialize_Operation_dict_to_Operation opFullOccurrence Option.none
        ⟨[], 0, [], [([Scalar.str "Operation", Scalar.int 12], 7)]⟩ =
      some (7, ⟨[], 0, [], [([Scalar.str "Operation", Scalar.int 12], 7)]⟩) := by
  constructor
  · exact c1_repeated_source_not_retransformed.1 opLazer Option.none
      ⟨[(100, opShortOccurrence)]⟩ opShortOccurrence rfl
  · exact c1_repeated_source_not_retransformed.2.2.1 opFullOccurrence Option.none
      ⟨[], 0, [], [([Scalar.str "Operation", Scalar.int 12], 7)]⟩
      [Scalar.str "Operation", Scalar.int 12] 7 rfl rfl

/-! ### C5 — the surrogate reuse token for key-less instances -/

/-- The short form cached (and returned on later appearances) for a source
instance whose key fields are all unset: the surrogate token `id(source)` under
the `__PYX_REUSE` marker, next to the (unset) key fields. -/
def surrogateShortForm (ident : Nat) : PyDict :=
  [("__PYX_REUSE", PyVal.scalar (.int ident)),
   ("operation_id", PyVal.scalar Scalar.none)]

/-- C5: when a destination dict is produced from a source instance whose key
fields are all unset, the generated code attaches the surrogate token
`id(source)` to the produced dict under the marker field `__PYXID` (distinct from
every real key field), records a short form carrying the token under
`__PYX_REUSE` in the cache, and a later appearance of the same source instance in
the same run resolves to that very short form (same token).  The token marker is
distinguishable from real key values: a dict carrying only real key fields never
matches the surrogate lookup path — `peek` returns `None` for it, and the cache
key is computed from the real key fields, not from a surrogate. -/
theorem c5_surrogate_reuse_token :
    (∀ (source : OperationS) (st : SState),
        source.operation_id = PyVal.scalar Scalar.none →
        alget st.cache source.ident = Option.none →
        alget (serialize_Operation_Operation_to_dict source Option.none st).1 "__PYXID" =
          some (PyVal.scalar (.int source.ident)) ∧
        alget (serialize_Operation_Operation_to_dict source Option.none st).2.cache
            source.ident = some (surrogateShortForm source.ident) ∧
        serialize_Operation_Operation_to_dict source Option.none
            (serialize_Operation_Operation_to_dict source Option.none st).2 =
          (surrogateShortForm source.ident,
           (serialize_Operation_Operation_to_dict source Option.none st).2)) ∧
    ("__PYXID" ∉ operationKeyNames ∧ "__PYX_REUSE" ∉ operationKeyNames) ∧
    (∀ (d : PyDict) (cache : List (PyVal × Nat)),
        alget d "__PYX_REUSE" = Option.none → peek d cache = Option.none) ∧
    (∀ (d : PyDict) (s : Scalar),
        alget d "__PYX_REUSE" = Option.none → alget d "__PYXID" = Option.none →
        alget d "operation_id" = some (PyVal.scalar s) →
        sqlaDictCacheKey "Operation" operationKeyNames d =
          some [Scalar.str "Operation", s]) := by
  refine ⟨?_, ⟨by decide, by decide⟩, ?_, ?_⟩
  · intro source st hkey hmiss
    have hrun : serialize_Operation_Operation_to_dict source Option.none st =
        (alset (alset (alset [] "operation_id" source.operation_id) "name" source.name)
           "__PYXID" (PyVal.scalar (.int source.ident)),
         { st with cache := alset st.cache source.ident (surrogateShortForm source.ident) }) := by
      unfold serialize_Operation_Operation_to_dict
      rw [hmiss]
      simp [hkey, pyTruthy, pyTruthyScalar, surrogateShortForm]
    refine ⟨?_, ?_, ?_⟩
    · rw [hrun]
      simp [alget, alset]
    · rw [hrun]
      simp [alget_alset_self]
    · rw [hrun]
      unfold serialize_Operation_Operation_to_dict
      simp [alget_alset_self]
  · intro d cache h
    unfold peek
    rw [h]
  · intro d s h1 h2 h3
    unfold sqlaDictCacheKey
    rw [h1, h2]
    simp [operationKeyNames, List.mapM.loop, h3, asScalarList, asScalar]

/-- C5 witness: a concrete key-less `Operation` source instance. -/
theorem c5_surrogate_reuse_token_witness :
    (alget (serialize_Operation_Operation_to_dict
        ⟨55, PyVal.scalar Scalar.none, PyVal.scalar (.str "milling")⟩ Option.none ⟨[]⟩).1
      "__PYXID" = some (PyVal.scalar (.int 55))) ∧
    peek [("operation_id", PyVal.scalar (.int 3))] [] = Option.none ∧
    sqlaDictCacheKey "Operation" operationKeyNames
        [("operation_id", PyVal.scalar (.int 3))] =
      some [Scalar.str "Operation", Scalar.int 3] := by
  refine ⟨?_, ?_, ?_⟩
  · exact (c5_surrogate_reuse_token.1
      ⟨55, PyVal.scalar Scalar.none, PyVal.scalar (.str "milling")⟩ ⟨[]⟩ rfl rfl).1
  · exact c5_surrogate_reuse_token.2.2.1 [("operation_id", PyVal.scalar (.int 3))] [] rfl
  · exact c5_surrogate_reuse_token.2.2.2 [("operation_id", PyVal.scalar (.int 3))]
      (Scalar.int 3) rfl rfl rfl

/-! ### C3 — which destinations actually reconcile -/

/-- An existing map-backed destination whose `parts` collection already holds the
element with key `1`, carrying an extra `marker` entry that an in-place update
would preserve. -/
def c3DestPrior : PyDict :=
  [("parts", PyVal.pylist
    [PyVal.dict [("order_part_id", PyVal.scalar (.int 1)),
                 ("marker", PyVal.scalar (.str "OLD"))]])]

/-- A source order with a single part whose key `1` matches the existing
destination element. -/
def c3SrcOrder : OrderS :=
  ⟨50, PyVal.scalar (.int 9),
   [⟨51, PyVal.scalar (.int 1), PyVal.scalar (.int 9), PyVal.scalar (.str "P"),
     PyVal.scalar Scalar.none, Option.none⟩]⟩

/-- The element the map-backed relation copy actually produces for the matched
key: a freshly built dict, not the existing one updated in place. -/
def c3FreshPart : PyDict :=
  [("order_part_id", PyVal.scalar (.int 1)),
   ("order_id", PyVal.scalar (.int 9)),
   ("name", PyVal.scalar (.str "P")),
   ("operation_id", PyVal.scalar Scalar.none)]

/-- C3 counterexample: for a map-backed destination, the emitted multi-valued
relation step does NOT perform key-based reconciliation.  With an existing
destination collection holding the element with key `1` (marked `"OLD"`) and a
source collection holding an element with the same key `1`, the claim requires
the matched element to be updated in place (so its `marker` entry survives);
instead `DictTypeSupport.relation_copy` replaces the collection wholesale: the
result holds a single freshly built dict in which the `marker` entry is gone and
which is not the prior element. -/
theorem c3_counterexample_dict_destination_replaces_wholesale :
    (serialize_Order_Order_to_dict c3SrcOrder (some c3DestPrior) ⟨[]⟩).1 =
      [("parts", PyVal.pylist [PyVal.dict c3FreshPart]),
       ("order_id", PyVal.scalar (.int 9))] ∧
    alget c3FreshPart "marker" = Option.none ∧
    alget c3FreshPart "order_part_id" = some (PyVal.scalar (.int 1)) := by
  exact ⟨rfl, rfl, rfl⟩

/-- C3 (amended): only entity-backed (SQLA) destinations get key-based relation
reconciliation (in-place update / creation / removal, per the `{A,B,C}` vs
`{A,C,D}` scenario); for map-backed and plain-object destinations the emitted
step replaces the destination collection wholesale — the object-backed step
clears the collection and appends exactly what the map-backed step builds, and
both produce the serialized source elements without consulting the previous
destination elements. -/
theorem c3_amended_only_sqla_destination_reconciles :
    (∀ (σ : Type) (child : PyVal → σ → PyVal × σ) (destPrior : List PyVal)
        (srcItems : List PyVal) (st : σ),
        relationCopyObjectRun child destPrior srcItems st =
          relationCopyLoop child srcItems st) ∧
    (∀ (σ : Type) (child : PyVal → σ → PyVal × σ) (dest : PyDict)
        (relation_name : String) (srcItems : List PyVal) (st : σ),
        alget (relationCopyDictRun child dest relation_name srcItems st).1 relation_name =
          some (PyVal.pylist (relationCopyLoop child srcItems st).1)) ∧
    (∀ (a b c d da db dc sa sc sd : Int) (i1 i2 i3 fresh : Nat),
        a ≠ b → a ≠ c → a ≠ d → b ≠ c → b ≠ d → c ≠ d →
        i1 ≠ i2 → i1 ≠ i3 → i2 ≠ i3 →
        genMergeRelationSqla2Run [⟨a, sa⟩, ⟨c, sc⟩, ⟨d, sd⟩]
            [⟨i1, a, da⟩, ⟨i2, b, db⟩, ⟨i3, c, dc⟩] fresh =
          ([⟨i1, a, sa⟩, ⟨i3, c, sc⟩, ⟨fresh, d, sd⟩], fresh + 1)) := by
  refine ⟨?_, ?_, ?_⟩
  · intro σ child destPrior srcItems st
    rfl
  · intro σ child dest relation_name srcItems st
    unfold relationCopyDictRun
    simp [alget_alset_self]
  · intro a b c d da db dc sa sc sd i1 i2 i3 fresh hab hac had hbc hbd hcd h12 h13 h23
    exact mergeScenarioACD a b c d da db dc sa sc sd i1 i2 i3 fresh
      hab hac had hbc hbd hcd h12 h13 h23

/-- C3 amended witness: concrete instances for all three parts. -/
theorem c3_amended_only_sqla_destination_reconciles_witness :
    relationCopyObjectRun (fun v st => (v, st)) [PyVal.scalar (.int 5)]
        [PyVal.scalar (.int 1)] (0 : Nat) =
      relationCopyLoop (fun v st => (v, st)) [PyVal.scalar (.int 1)] 0 ∧
    alget (relationCopyDictRun (fun v st => (v, st)) c3DestPrior "parts"
        [PyVal.scalar (.int 1)] (0 : Nat)).1 "parts" =
      some (PyVal.pylist (relationCopyLoop (fun v st => (v, st))
        [PyVal.scalar (.int 1)] 0).1) ∧
    genMergeRelationSqla2Run [⟨1, 100⟩, ⟨3, 300⟩, ⟨4, 400⟩]
        [⟨20, 1, 7⟩, ⟨21, 2, 8⟩, ⟨22, 3, 9⟩] 23 =
      ([⟨20, 1, 100⟩, ⟨22, 3, 300⟩, ⟨23, 4, 400⟩], 24) := by
  refine ⟨?_, ?_, ?_⟩
  · exact c3_amended_only_sqla_destination_reconciles.1 Nat (fun v st => (v, st))
      [PyVal.scalar (.int 5)] [PyVal.scalar (.int 1)] 0
  · exact c3_amended_only_sqla_destination_reconciles.2.1 Nat (fun v st => (v, st))
      c3DestPrior "parts" [PyVal.scalar (.int 1)] 0
  · exact c3_amended_only_sqla_destination_reconciles.2.2 1 2 3 4 7 8 9 100 300 400
      20 21 22 23 (by decide) (by decide) (by decide) (by decide) (by decide)
      (by decide) (by decide) (by decide) (by decide)

/-! ### C6 — empty source collection empties the destination collection -/

theorem alget_append_none [DecidableEq κ] (l1 l2 : List (κ × α)) (k : κ)
    (h : alget l1 k = Option.none) : alget (l1 ++ l2) k = alget l2 k := by
  induction l1 with
  | nil => rfl
  | cons kv rest ih =>
    obtain ⟨k1, v1⟩ := kv
    by_cases h1 : k1 = k
    · subst h1; simp [alget] at h
    · simp only [alget, if_neg h1] at h
      simp [alget, h1, ih h]

theorem pyDedupGo_of_disjoint :
    ∀ (l seen : List Nat), l.Nodup → (∀ x ∈ l, x ∉ seen) → pyDedupGo seen l = l := by
  intro l
  induction l with
  | nil => intro seen _ _; rfl
  | cons x xs ih =>
    intro seen hnd hdis
    have hx : x ∉ seen := hdis x (List.mem_cons_self x xs)
    simp only [pyDedupGo, if_neg hx]
    have hxs : xs.Nodup := (List.nodup_cons.mp hnd).2
    have hxnotxs : x ∉ xs := (List.nodup_cons.mp hnd).1
    have : pyDedupGo (x :: seen) xs = xs := by
      refine ih (x :: seen) hxs ?_
      intro y hy
      simp only [List.mem_cons]
      push_neg
      exact ⟨fun hyx => hxnotxs (hyx ▸ hy), fun hys => hdis y (List.mem_cons_of_mem _ hy) hys⟩
    rw [this]

theorem pyDedupNat_of_nodup (l : List Nat) (h : l.Nodup) : pyDedupNat l = l :=
  pyDedupGo_of_disjoint l [] h (by intro x _ hx; cases hx)

theorem foldl_removeFirstNat_self :
    ∀ (l : List Nat), l.Nodup → List.foldl removeFirstNat l l = [] := by
  intro l
  induction l with
  | nil => intro _; rfl
  | cons x xs ih =>
    intro hnd
    have : removeFirstNat (x :: xs) x = xs := by simp [removeFirstNat]
    simp only [List.foldl_cons, this]
    exact ih (List.nodup_cons.mp hnd).2

theorem foldl_alset_fresh :
    ∀ (dst : List DstElem) (m : List (Int × DstElem)),
      (∀ e ∈ dst, alget m e.key = Option.none) → (dst.map DstElem.key).Nodup →
      dst.foldl (fun acc e => alset acc e.key e) m = m ++ dst.map (fun e => (e.key, e)) := by
  intro dst
  induction dst with
  | nil => intro m _ _; simp
  | cons e rest ih =>
    intro m hfresh hnd
    obtain ⟨hnotin, hnd'⟩ : e.key ∉ rest.map DstElem.key ∧ (rest.map DstElem.key).Nodup := by
      simpa only [List.map_cons, List.nodup_cons] using hnd
    have hne : ∀ q ∈ rest, e.key ≠ q.key := by
      intro q hq h
      exact hnotin (by rw [h]; exact List.mem_map_of_mem DstElem.key hq)
    have h1 : alset m e.key e = m ++ [(e.key, e)] :=
      alset_append_of_none m e.key e (hfresh e (List.mem_cons_self e rest))
    simp only [List.foldl_cons, h1]
    have hfresh' : ∀ q ∈ rest, alget (m ++ [(e.key, e)]) q.key = Option.none := by
      intro q hq
      rw [alget_append_none m [(e.key, e)] q.key (hfresh q (List.mem_cons_of_mem _ hq))]
      simp [alget, hne q hq]
    rw [ih (m ++ [(e.key, e)]) hfresh' hnd']
    simp

theorem removeRemaining_map_self :
    ∀ (dst : List DstElem), removeRemaining (dst.map (fun e => (e.key, e))) dst = [] := by
  intro dst
  induction dst with
  | nil => rfl
  | cons e rest ih =>
    unfold removeRemaining
    simp only [List.map_cons, List.foldl_cons]
    have h1 : removeFirstDst (e :: rest) e.ident = rest := by simp [removeFirstDst]
    rw [h1]
    exact ih

/-- C6: merging an empty source collection into an entity-backed destination
removes every element from the destination collection, however many there were.
For the cache-based merge of `gen_merge_relation_sqla` (pyxfer), the source loop
does nothing and the removal pass `for item in set(dest.parts) - used:
dest.parts.remove(item)` empties the collection; for the key-diff merge of
`gen_merge_relation_sqla2` / montgomery `gen_merge_relation_sqla`, every
destination key stays unmatched and the removal pass deletes all elements. -/
theorem c6_empty_source_empties_destination :
    (∀ (st : DState) (i : Nat) (o : OrderD),
        heapGetOrder st i = some o → o.parts.Nodup →
        mergePartsLoop i [] [] st = some ([], st) ∧
        removeUnusedParts i [] st =
          some (heapSet st i (Ent.order { o with parts := [] }))) ∧
    (∀ (dst : List DstElem) (fresh : Nat),
        (dst.map DstElem.key).Nodup →
        genMergeRelationSqla2Run [] dst fresh = ([], fresh)) := by
  constructor
  · intro st i o ho hnd
    refine ⟨rfl, ?_⟩
    unfold removeUnusedParts
    rw [ho]
    simp only [Option.bind_eq_bind, Option.some_bind]
    have h1 : (pyDedupNat o.parts).filter (fun x => !(([] : List Nat).contains x)) =
        o.parts := by
      rw [pyDedupNat_of_nodup o.parts hnd]
      simp
    rw [h1, foldl_removeFirstNat_self o.parts hnd]
  · intro dst fresh hnd
    unfold genMergeRelationSqla2Run
    have hb : buildDestInstKeys dst = dst.map (fun e => (e.key, e)) := by
      unfold buildDestInstKeys
      have h := foldl_alset_fresh dst [] (fun e _ => rfl) hnd
      simpa using h
    simp only [mergeSqla2Loop]
    rw [hb, removeRemaining_map_self]

/-- C6 witness: a destination collection of two keyed elements against an empty
source collection, in both merge embeddings. -/
theorem c6_empty_source_empties_destination_witness :
    removeUnusedParts 0 [] ⟨[(0, Ent.order ⟨PyVal.scalar (.int 1), [1, 2]⟩)], 3, [0], []⟩ =
      some (heapSet ⟨[(0, Ent.order ⟨PyVal.scalar (.int 1), [1, 2]⟩)], 3, [0], []⟩ 0
        (Ent.order { order_id := PyVal.scalar (.int 1), parts := ([] : List Nat) })) ∧
    genMergeRelationSqla2Run [] [⟨10, 1, 7⟩, ⟨11, 2, 8⟩] 12 = ([], 12) := by
  constructor
  · exact (c6_empty_source_empties_destination.1
      ⟨[(0, Ent.order ⟨PyVal.scalar (.int 1), [1, 2]⟩)], 3, [0], []⟩ 0
      ⟨PyVal.scalar (.int 1), [1, 2]⟩ rfl (by decide)).2
  · exact c6_empty_source_empties_destination.2 [⟨10, 1, 7⟩, ⟨11, 2, 8⟩] 12 (by decide)

/-! ### C8 — round trip: entity → dict → fresh entity

We prove the round trip for an `Order` with an arbitrary list of parts (each with
a set, truthy, pairwise-distinct key and no `operation`), transforming to the
dict representation and back into fresh instances in a fresh run. -/

/-- The dict a fresh `OrderPart` with no operation serializes to. -/
def partDictOf (p : OrderPartS) : PyDict :=
  [("order_part_id", p.order_part_id), ("order_id", p.order_id),
   ("name", p.name), ("operation_id", p.operation_id)]

/-- The dict a fresh `Order` serializes to. -/
def orderDictOf (order : OrderS) : PyDict :=
  [("order_id", order.order_id),
   ("parts", PyVal.pylist (order.parts.map (fun p => PyVal.dict (partDictOf p))))]

/-- The short form cached for a keyed `OrderPart`. -/
def partShortForm (p : OrderPartS) : PyDict :=
  [("__PYX_REUSE", PyVal.tup [p.order_part_id])]

/-- The short form cached for a keyed `Order`. -/
def orderShortForm (o : OrderS) : PyDict :=
  [("__PYX_REUSE", PyVal.tup [o.order_id])]

theorem serialize_part_fresh (p : OrderPartS) (st : SState) (s : Scalar)
    (hkey : p.order_part_id = PyVal.scalar s) (hs : pyTruthyScalar s = true)
    (hop : p.operation = Option.none)
    (hmiss : alget st.cache p.ident = Option.none) :
    serialize_OrderPart_OrderPart_to_dict p Option.none st =
      (partDictOf p, { st with cache := alset st.cache p.ident (partShortForm p) }) := by
  unfold serialize_OrderPart_OrderPart_to_dict
  rw [hmiss, hop]
  have hany : ([p.order_part_id].any pyTruthy) = true := by
    simp [hkey, pyTruthy, hs]
  simp [hany, partDictOf, partShortForm, alset]

theorem serializePartsLoop_fresh :
    ∀ (ps : List OrderPartS) (st : SState),
      (∀ p ∈ ps, ∃ s, p.order_part_id = PyVal.scalar s ∧ pyTruthyScalar s = true) →
      (∀ p ∈ ps, p.operation = Option.none) →
      (∀ p ∈ ps, alget st.cache p.ident = Option.none) →
      (ps.map OrderPartS.ident).Nodup →
      (serializePartsLoop ps st).1 = ps.map (fun p => PyVal.dict (partDictOf p)) := by
  intro ps
  induction ps with
  | nil => intro st _ _ _ _; rfl
  | cons p rest ih =>
    intro st hkeys hops hmiss hnd
    obtain ⟨hnotin, hnd'⟩ :
        p.ident ∉ rest.map OrderPartS.ident ∧ (rest.map OrderPartS.ident).Nodup := by
      simpa only [List.map_cons, List.nodup_cons] using hnd
    obtain ⟨s, hk, hs⟩ := hkeys p (List.mem_cons_self p rest)
    have h1 := serialize_part_fresh p st s hk hs (hops p (List.mem_cons_self p rest))
      (hmiss p (List.mem_cons_self p rest))
    have hmiss' : ∀ q ∈ rest,
        alget (alset st.cache p.ident (partShortForm p)) q.ident = Option.none := by
      intro q hq
      have hne : p.ident ≠ q.ident := by
        intro h
        exact hnotin (by rw [h]; exact List.mem_map_of_mem OrderPartS.ident hq)
      rw [alget_alset_ne _ _ _ _ hne]
      exact hmiss q (List.mem_cons_of_mem _ hq)
    have h2 := ih { st with cache := alset st.cache p.ident (partShortForm p) }
      (fun q hq => hkeys q (List.mem_cons_of_mem _ hq))
      (fun q hq => hops q (List.mem_cons_of_mem _ hq))
      hmiss' hnd'
    unfold serializePartsLoop
    rw [h1]
    simp [h2]

theorem serialize_order_fresh (order : OrderS) (so : Scalar)
    (hkey : order.order_id = PyVal.scalar so) (hso : pyTruthyScalar so = true)
    (hkeys : ∀ p ∈ order.parts, ∃ s, p.order_part_id = PyVal.scalar s ∧ pyTruthyScalar s = true)
    (hops : ∀ p ∈ order.parts, p.operation = Option.none)
    (hidorder : ∀ p ∈ order.parts, p.ident ≠ order.ident)
    (hnd : (order.parts.map OrderPartS.ident).Nodup) :
    (serialize_Order_Order_to_dict order Option.none ⟨[]⟩).1 = orderDictOf order := by
  unfold serialize_Order_Order_to_dict
  have hany : ([order.order_id].any pyTruthy) = true := by
    simp [hkey, pyTruthy, hso]
  have hmiss : ∀ p ∈ order.parts,
      alget (alset ([] : List (Nat × PyDict)) order.ident (orderShortForm order)) p.ident =
        Option.none := by
    intro p hp
    rw [alget_alset_ne _ _ _ _ (fun h => hidorder p hp h.symm)]
    rfl
  have hloop := serializePartsLoop_fresh order.parts
    ⟨alset [] order.ident (orderShortForm order)⟩ hkeys hops hmiss hnd
  simp only [alset, orderShortForm] at hloop
  simp only [alget, hany, if_true]
  simp [hloop, orderDictOf, orderShortForm, alset]

/-- What deserializing `partDictOf p` into a fresh instance produces: the same
scalar field values, no relation (`operation` was not serialized). -/
def roundtripPart (p : OrderPartS) : OrderPartD :=
  { order_part_id := p.order_part_id, order_id := p.order_id, name := p.name,
    operation_id := p.operation_id, operation := Option.none }

/-- The key scalar of a part whose key field holds a scalar. -/
def keyScalarOf (p : OrderPartS) : Scalar :=
  (asScalar p.order_part_id).getD Scalar.none

/-- The deserialize-direction cache key of a part. -/
def partCKeyOf (p : OrderPartS) : CKey :=
  [Scalar.str "OrderPart", keyScalarOf p]

/-- The heap cells for the parts created so far (identities `startIdx`,
`startIdx+1`, ...). -/
def heapEntriesFor (startIdx : Nat) : List OrderPartS → List (Nat × Ent)
  | [] => []
  | p :: rest => (startIdx, Ent.part (roundtripPart p)) :: heapEntriesFor (startIdx + 1) rest

/-- The cache entries for the parts created so far. -/
def cacheEntriesFor (startIdx : Nat) : List OrderPartS → List (CKey × Nat)
  | [] => []
  | p :: rest => (partCKeyOf p, startIdx) :: cacheEntriesFor (startIdx + 1) rest

/-- The run state after the order (identity `0`) was created and `processed`
parts have been merged into its collection. -/
def dsAfter (oid : PyVal) (okey : CKey) (processed : List OrderPartS) : DState :=
  { heap := (0, Ent.order { order_id := oid, parts := List.range' 1 processed.length }) ::
      heapEntriesFor 1 processed,
    next := 1 + processed.length,
    session := 0 :: List.range' 1 processed.length,
    cache := (okey, 0) :: cacheEntriesFor 1 processed }

theorem alset_alset_self [DecidableEq κ] (m : List (κ × α)) (k : κ) (v w : α) :
    alset (alset m k v) k w = alset m k w := by
  induction m with
  | nil => simp [alset]
  | cons kv rest ih =>
    obtain ⟨k1, v1⟩ := kv
    by_cases h : k1 = k
    · subst h; simp [alset]
    · simp [alset, h, ih]

theorem cacheKey_partDict (p : OrderPartS) (s : Scalar)
    (hk : p.order_part_id = PyVal.scalar s) :
    sqlaDictCacheKey "OrderPart" orderPartKeyNames (partDictOf p) =
      some [Scalar.str "OrderPart", s] := by
  unfold sqlaDictCacheKey
  have h1 : alget (partDictOf p) "__PYX_REUSE" = Option.none := by
    simp [partDictOf, alget]
  have h2 : alget (partDictOf p) "__PYXID" = Option.none := by
    simp [partDictOf, alget]
  have h3 : alget (partDictOf p) "order_part_id" = some p.order_part_id := by
    simp [partDictOf, alget]
  rw [h1, h2]
  simp [orderPartKeyNames, List.mapM.loop, h3, hk, asScalarList, asScalar]

theorem okey_ne_partCKey (so s : Scalar) :
    ([Scalar.str "Order", so] : CKey) ≠ [Scalar.str "OrderPart", s] := by
  intro h
  injection h with h1 _
  injection h1 with h2
  exact absurd h2 (by decide)

theorem alget_cacheEntriesFor_none :
    ∀ (l : List OrderPartS) (i : Nat) (k : CKey),
      (∀ q ∈ l, partCKeyOf q ≠ k) → alget (cacheEntriesFor i l) k = Option.none := by
  intro l
  induction l with
  | nil => intro i k _; rfl
  | cons q rest ih =>
    intro i k hne
    simp only [cacheEntriesFor, alget, if_neg (hne q (List.mem_cons_self q rest))]
    exact ih (i + 1) k (fun r hr => hne r (List.mem_cons_of_mem _ hr))

theorem alget_heapEntriesFor_out :
    ∀ (l : List OrderPartS) (i j : Nat), (j < i ∨ i + l.length ≤ j) →
      alget (heapEntriesFor i l) j = Option.none := by
  intro l
  induction l with
  | nil => intro i j _; rfl
  | cons q rest ih =>
    intro i j hj
    have hne : i ≠ j := by
      rcases hj with h | h
      · omega
      · simp only [List.length_cons] at h; omega
    simp only [heapEntriesFor, alget, if_neg hne]
    refine ih (i + 1) j ?_
    rcases hj with h | h
    · omega
    · simp only [List.length_cons] at h; omega

theorem alget_heapEntriesFor_part :
    ∀ (l : List OrderPartS) (i j : Nat) (e : Ent),
      alget (heapEntriesFor i l) j = some e → ∃ q ∈ l, e = Ent.part (roundtripPart q) := by
  intro l
  induction l with
  | nil => intro i j e h; cases h
  | cons q rest ih =>
    intro i j e h
    simp only [heapEntriesFor, alget] at h
    by_cases hij : i = j
    · rw [if_pos hij] at h
      injection h with h'
      exact ⟨q, List.mem_cons_self q rest, h'.symm⟩
    · rw [if_neg hij] at h
      obtain ⟨r, hr, he⟩ := ih (i + 1) j e h
      exact ⟨r, List.mem_cons_of_mem _ hr, he⟩

theorem heapEntriesFor_append_one :
    ∀ (l : List OrderPartS) (i : Nat) (p : OrderPartS),
      heapEntriesFor i (l ++ [p]) =
        heapEntriesFor i l ++ [(i + l.length, Ent.part (roundtripPart p))] := by
  intro l
  induction l with
  | nil => intro i p; simp [heapEntriesFor]
  | cons q rest ih =>
    intro i p
    simp only [List.cons_append, heapEntriesFor, List.append_eq]
    rw [ih (i + 1) p]
    simp only [List.length_cons]
    have h : i + 1 + rest.length = i + (rest.length + 1) := by omega
    rw [h]

theorem cacheEntriesFor_append_one :
    ∀ (l : List OrderPartS) (i : Nat) (p : OrderPartS),
      cacheEntriesFor i (l ++ [p]) =
        cacheEntriesFor i l ++ [(partCKeyOf p, i + l.length)] := by
  intro l
  induction l with
  | nil => intro i p; simp [cacheEntriesFor]
  | cons q rest ih =>
    intro i p
    simp only [List.cons_append, cacheEntriesFor, List.append_eq]
    rw [ih (i + 1) p]
    simp only [List.length_cons]
    have h : i + 1 + rest.length = i + (rest.length + 1) := by omega
    rw [h]

theorem find?_append_singleton {α : Type} (l : List α) (x : α) (pred : α → Bool)
    (h : ∀ y ∈ l, pred y = false) (hx : pred x = true) :
    (l ++ [x]).find? pred = some x := by
  rw [List.find?_append]
  have hnone : l.find? pred = Option.none :=
    List.find?_eq_none.mpr (by intro y hy; simp [h y hy])
  rw [hnone]
  simp [List.find?, hx]

theorem sessionMerge_self_of_find (n : Nat) (st : DState) (e : Ent) (s : Scalar)
    (hn : alget st.heap n = some e)
    (hpk : asScalar (entPK e) = some s)
    (hs : pyTruthyScalar s = true)
    (hfind : st.session.find? (fun j =>
        match alget st.heap j with
        | some e2 => entKindIdx e2 == entKindIdx e && asScalar (entPK e2) == some s
        | Option.none => false) = some n) :
    sessionMerge n st = (n, st) := by
  unfold sessionMerge
  simp only [hn, hpk, hs, if_true]
  rw [hfind]
  simp

theorem deserialize_part_fresh (p : OrderPartS) (s : Scalar) (st : DState)
    (hk : p.order_part_id = PyVal.scalar s) (hs : pyTruthyScalar s = true)
    (hmiss : alget st.cache [Scalar.str "OrderPart", s] = Option.none)
    (hheap : alget st.heap st.next = Option.none)
    (hnotin : st.next ∉ st.session)
    (hsess : ∀ j ∈ st.session, ∀ e, alget st.heap j = some e →
        (entKindIdx e == 1 && (asScalar (entPK e) == some s)) = false) :
    serialize_OrderPart_dict_to_OrderPart (partDictOf p) Option.none st =
      some (st.next,
        { heap := alset st.heap st.next (Ent.part (roundtripPart p)),
          next := st.next + 1,
          session := st.session ++ [st.next],
          cache := alset st.cache [Scalar.str "OrderPart", s] st.next }) := by
  unfold serialize_OrderPart_dict_to_OrderPart
  rw [cacheKey_partDict p s hk]
  simp only [Option.bind_eq_bind, Option.some_bind, hmiss, createEnt, heapGetPart,
    alget_alset_self, Option.some_bind]
  simp [partDictOf, alget, isSingleRelationPresentDict, heapSet, alset_alset_self]
  refine sessionMerge_self_of_find st.next _ (Ent.part (roundtripPart p)) s ?_ ?_ hs ?_
  · rw [alget_alset_self]
    rfl
  · simp [entPK, roundtripPart, asScalar, hk]
  · refine find?_append_singleton st.session st.next _ ?_ ?_
    · intro y hy
      have hyne : st.next ≠ y := fun h => hnotin (h ▸ hy)
      simp only [alget_alset_ne _ _ _ _ hyne]
      cases he : alget st.heap y with
      | none => rfl
      | some e => simpa [entKindIdx] using hsess y hy e he
    · simp [alget_alset_self, entKindIdx, entPK, roundtripPart, asScalar, hk]

theorem alset_cons_ne [DecidableEq κ] (k1 k : κ) (v1 v : α) (m : List (κ × α))
    (h : k1 ≠ k) : alset ((k1, v1) :: m) k v = (k1, v1) :: alset m k v := by
  simp [alset, h]

theorem alset_cons_self [DecidableEq κ] (k : κ) (v1 v : α) (m : List (κ × α)) :
    alset ((k, v1) :: m) k v = (k, v) :: m := by
  simp [alset]

theorem dsAfter_cache_miss (oid : PyVal) (so s : Scalar) (processed : List OrderPartS)
    (hqk : ∀ q ∈ processed, keyScalarOf q ≠ s) :
    alget (dsAfter oid [Scalar.str "Order", so] processed).cache
      [Scalar.str "OrderPart", s] = Option.none := by
  show alget (([Scalar.str "Order", so], 0) :: cacheEntriesFor 1 processed)
    [Scalar.str "OrderPart", s] = Option.none
  rw [alget_cons_ne _ _ _ _ (okey_ne_partCKey so s)]
  refine alget_cacheEntriesFor_none processed 1 _ ?_
  intro q hq h
  simp only [partCKeyOf, List.cons.injEq] at h
  exact hqk q hq h.2.1

theorem mergePartsLoop_cons_step (p : OrderPartS) (rest' : List OrderPartS)
    (processed : List OrderPartS) (oid : PyVal) (so s : Scalar)
    (hk : p.order_part_id = PyVal.scalar s) (hs : pyTruthyScalar s = true)
    (hqk : ∀ q ∈ processed, keyScalarOf q ≠ s) :
    mergePartsLoop 0 ((p :: rest').map (fun q => PyVal.dict (partDictOf q)))
        (List.range' 1 processed.length)
        (dsAfter oid [Scalar.str "Order", so] processed) =
      mergePartsLoop 0 (rest'.map (fun q => PyVal.dict (partDictOf q)))
        (List.range' 1 (processed ++ [p]).length)
        (dsAfter oid [Scalar.str "Order", so] (processed ++ [p])) := by
  have hdest := dsAfter_cache_miss oid so s processed hqk
  have hheap : alget (dsAfter oid [Scalar.str "Order", so] processed).heap
      (dsAfter oid [Scalar.str "Order", so] processed).next = Option.none := by
    show alget ((0, Ent.order _) :: heapEntriesFor 1 processed) (1 + processed.length) =
      Option.none
    rw [alget_cons_ne _ _ _ _ (by omega)]
    exact alget_heapEntriesFor_out processed 1 _ (Or.inr (le_refl _))
  have hnotin : (dsAfter oid [Scalar.str "Order", so] processed).next ∉
      (dsAfter oid [Scalar.str "Order", so] processed).session := by
    show 1 + processed.length ∉ 0 :: List.range' 1 processed.length
    simp [List.mem_range'_1]
  have hsess : ∀ j ∈ (dsAfter oid [Scalar.str "Order", so] processed).session, ∀ e,
      alget (dsAfter oid [Scalar.str "Order", so] processed).heap j = some e →
      (entKindIdx e == 1 && (asScalar (entPK e) == some s)) = false := by
    intro j hj e he
    rcases List.mem_cons.mp hj with hj0 | hjr
    · subst hj0
      have : e = Ent.order { order_id := oid, parts := List.range' 1 processed.length } := by
        have := he
        simp only [dsAfter, alget_cons_self] at this
        injection this with h'
        exact h'.symm
      subst this
      simp [entKindIdx]
    · have hjne : (0 : Nat) ≠ j := by
        have := List.mem_range'_1.mp hjr
        omega
      have he' : alget (heapEntriesFor 1 processed) j = some e := by
        have h0 := he
        simp only [dsAfter] at h0
        rwa [alget_cons_ne _ _ _ _ hjne] at h0
      obtain ⟨q, hq, rfl⟩ := alget_heapEntriesFor_part processed 1 j e he'
      simp only [entKindIdx, entPK, roundtripPart]
      cases hqs : asScalar q.order_part_id with
      | none => simp
      | some sq =>
        have : keyScalarOf q = sq := by simp [keyScalarOf, hqs]
        have hne : sq ≠ s := this ▸ hqk q hq
        simp [hne]
  have hrun := deserialize_part_fresh p s (dsAfter oid [Scalar.str "Order", so] processed)
    hk hs hdest hheap hnotin hsess
  simp only [List.map_cons, mergePartsLoop]
  simp only [Option.bind_eq_bind, Option.some_bind]
  rw [cacheKey_partDict p s hk]
  simp only [Option.bind_eq_bind, Option.some_bind, hdest, hrun]
  have hne0 : (dsAfter oid [Scalar.str "Order", so] processed).next ≠ 0 := by
    show 1 + processed.length ≠ 0
    omega
  simp only [heapGetOrder, alget_alset_ne _ _ _ _ hne0]
  simp only [dsAfter, alget_cons_self, Option.some_bind, heapSet]
  have hlen : (processed ++ [p]).length = processed.length + 1 := by simp
  have hrange : List.range' 1 (processed.length + 1) =
      List.range' 1 processed.length ++ [1 + processed.length] := by
    rw [List.range'_concat]
    simp [Nat.add_comm]
  have hheapE : alset (heapEntriesFor 1 processed) (1 + processed.length)
      (Ent.part (roundtripPart p)) =
      heapEntriesFor 1 processed ++ [(1 + processed.length, Ent.part (roundtripPart p))] :=
    alset_append_of_none _ _ _ (alget_heapEntriesFor_out processed 1 _ (Or.inr (le_refl _)))
  have hkS : keyScalarOf p = s := by simp [keyScalarOf, asScalar, hk]
  have hcacheE : alset (cacheEntriesFor 1 processed) [Scalar.str "OrderPart", s]
      (1 + processed.length) =
      cacheEntriesFor 1 processed ++ [([Scalar.str "OrderPart", s], 1 + processed.length)] :=
    alset_append_of_none _ _ _ (by
      refine alget_cacheEntriesFor_none processed 1 _ ?_
      intro q hq h
      simp only [partCKeyOf, List.cons.injEq] at h
      exact hqk q hq h.2.1)
  have h0N : (0 : Nat) ≠ 1 + processed.length := by omega
  rw [hlen, hrange, heapEntriesFor_append_one, cacheEntriesFor_append_one]
  simp only [partCKeyOf, hkS]
  rw [alset_cons_ne _ _ _ _ _ h0N, hheapE, alset_cons_self,
      alset_cons_ne _ _ _ _ _ (okey_ne_partCKey so s), hcacheE]
  rfl

theorem mergePartsLoop_roundtrip :
    ∀ (rest processed : List OrderPartS) (oid : PyVal) (so : Scalar),
      (∀ p ∈ rest, ∃ s, p.order_part_id = PyVal.scalar s ∧ pyTruthyScalar s = true) →
      ((processed ++ rest).map keyScalarOf).Nodup →
      mergePartsLoop 0 (rest.map (fun q => PyVal.dict (partDictOf q)))
          (List.range' 1 processed.length)
          (dsAfter oid [Scalar.str "Order", so] processed) =
        some (List.range' 1 (processed ++ rest).length,
              dsAfter oid [Scalar.str "Order", so] (processed ++ rest)) := by
  intro rest
  induction rest with
  | nil =>
    intro processed oid so _ _
    simp [mergePartsLoop]
  | cons p rest' ih =>
    intro processed oid so hkeys hnd
    obtain ⟨s, hk, hs⟩ := hkeys p (List.mem_cons_self p rest')
    have hkS : keyScalarOf p = s := by simp [keyScalarOf, asScalar, hk]
    have hnd2 := hnd
    rw [List.map_append] at hnd2
    have hdisj := (List.nodup_append.mp hnd2).2.2
    have hqk : ∀ q ∈ processed, keyScalarOf q ≠ s := by
      intro q hq h
      have h1 : keyScalarOf q ∈ processed.map keyScalarOf :=
        List.mem_map_of_mem _ hq
      have h2 : keyScalarOf q ∈ (p :: rest').map keyScalarOf := by
        rw [h, ← hkS]
        exact List.mem_map_of_mem _ (List.mem_cons_self p rest')
      exact hdisj h1 h2
    rw [mergePartsLoop_cons_step p rest' processed oid so s hk hs hqk]
    have hnd' : (((processed ++ [p]) ++ rest').map keyScalarOf).Nodup := by
      simp only [List.append_assoc, List.singleton_append]
      exact hnd
    rw [ih (processed ++ [p]) oid so (fun q hq => hkeys q (List.mem_cons_of_mem _ hq)) hnd']
    simp only [List.append_assoc, List.singleton_append]

theorem cacheKey_orderDict (order : OrderS) (so : Scalar)
    (hk : order.order_id = PyVal.scalar so) :
    sqlaDictCacheKey "Order" orderKeyNames (orderDictOf order) =
      some [Scalar.str "Order", so] := by
  unfold sqlaDictCacheKey
  have h1 : alget (orderDictOf order) "__PYX_REUSE" = Option.none := by
    simp [orderDictOf, alget]
  have h2 : alget (orderDictOf order) "__PYXID" = Option.none := by
    simp [orderDictOf, alget]
  have h3 : alget (orderDictOf order) "order_id" = some order.order_id := by
    simp [orderDictOf, alget]
  rw [h1, h2]
  simp [orderKeyNames, List.mapM.loop, h3, hk, asScalarList, asScalar]

theorem alget_heapEntriesFor_at :
    ∀ (pre : List OrderPartS) (p : OrderPartS) (post : List OrderPartS) (i : Nat),
      alget (heapEntriesFor i (pre ++ p :: post)) (i + pre.length) =
        some (Ent.part (roundtripPart p)) := by
  intro pre
  induction pre with
  | nil => intro p post i; simp [heapEntriesFor, alget]
  | cons q pre' ih =>
    intro p post i
    simp only [List.cons_append, heapEntriesFor]
    rw [alget_cons_ne _ _ _ _
      (by simp only [List.length_cons]; omega : i ≠ i + (q :: pre').length)]
    have h := ih p post (i + 1)
    rw [show i + (q :: pre').length = (i + 1) + pre'.length by
      simp only [List.length_cons]; omega]
    exact h

theorem mapM_heapGetPart_ds :
    ∀ (post pre : List OrderPartS) (oid : PyVal) (okey : CKey),
      (List.range' (1 + pre.length) post.length).mapM
          (heapGetPart (dsAfter oid okey (pre ++ post))) =
        some (post.map roundtripPart) := by
  intro post
  induction post with
  | nil => intro pre oid okey; simp [List.mapM.loop]
  | cons p rest ih =>
    intro pre oid okey
    simp only [List.length_cons, List.map_cons]
    rw [List.range'_succ, List.mapM_cons]
    have h1 : heapGetPart (dsAfter oid okey (pre ++ p :: rest)) (1 + pre.length) =
        some (roundtripPart p) := by
      unfold heapGetPart dsAfter
      rw [alget_cons_ne _ _ _ _ (by omega)]
      rw [alget_heapEntriesFor_at pre p rest 1]
    rw [h1]
    have h2 := ih (pre ++ [p]) oid okey
    simp only [List.append_assoc, List.singleton_append, List.length_append,
      List.length_singleton] at h2
    have harith : 1 + pre.length + 1 = 1 + (pre.length + 1) := by omega
    rw [harith, h2]
    simp

theorem removeUnused_dsAfter (order : OrderS) (so : Scalar) :
    removeUnusedParts 0 (List.range' 1 order.parts.length)
        (dsAfter order.order_id [Scalar.str "Order", so] order.parts) =
      some (dsAfter order.order_id [Scalar.str "Order", so] order.parts) := by
  unfold removeUnusedParts
  have hgo : heapGetOrder (dsAfter order.order_id [Scalar.str "Order", so] order.parts) 0 =
      some { order_id := order.order_id, parts := List.range' 1 order.parts.length } := rfl
  rw [hgo]
  simp only [Option.bind_eq_bind, Option.some_bind]
  have hded : pyDedupNat (List.range' 1 order.parts.length) =
      List.range' 1 order.parts.length :=
    pyDedupNat_of_nodup _ (List.nodup_range' 1 _)
  rw [hded]
  have hfil : (List.range' 1 order.parts.length).filter
      (fun x => !((List.range' 1 order.parts.length).contains x)) = [] := by
    rw [List.filter_eq_nil_iff]
    intro a ha
    simp [ha]
  rw [hfil]
  show some (heapSet (dsAfter order.order_id [Scalar.str "Order", so] order.parts) 0
    (Ent.order { order_id := order.order_id, parts := List.range' 1 order.parts.length })) = _
  unfold heapSet dsAfter
  rw [alset_cons_self]

theorem sessionMerge_dsAfter (order : OrderS) (so : Scalar)
    (hko : order.order_id = PyVal.scalar so) (hso : pyTruthyScalar so = true) :
    sessionMerge 0 (dsAfter order.order_id [Scalar.str "Order", so] order.parts) =
      (0, dsAfter order.order_id [Scalar.str "Order", so] order.parts) := by
  refine sessionMerge_self_of_find 0 _
    (Ent.order ⟨order.order_id, List.range' 1 order.parts.length⟩) so rfl ?_ hso ?_
  · simp [entPK, asScalar, hko]
  · show List.find? _ (0 :: List.range' 1 order.parts.length) = some 0
    rw [List.find?_cons]
    have h0 : alget (dsAfter order.order_id [Scalar.str "Order", so] order.parts).heap 0 =
        some (Ent.order ⟨order.order_id, List.range' 1 order.parts.length⟩) := rfl
    rw [h0]
    simp [entKindIdx, entPK, hko, asScalar]

theorem c8_roundtrip_preserves_fields_and_membership (order : OrderS) (so : Scalar)
    (hko : order.order_id = PyVal.scalar so) (hso : pyTruthyScalar so = true)
    (hkeys : ∀ p ∈ order.parts, ∃ s, p.order_part_id = PyVal.scalar s ∧ pyTruthyScalar s = true)
    (hops : ∀ p ∈ order.parts, p.operation = Option.none)
    (hidorder : ∀ p ∈ order.parts, p.ident ≠ order.ident)
    (hidnd : (order.parts.map OrderPartS.ident).Nodup)
    (hknd : (order.parts.map keyScalarOf).Nodup) :
    serialize_Order_dict_to_Order
        ((serialize_Order_Order_to_dict order Option.none ⟨[]⟩).1) Option.none
        ⟨[], 0, [], []⟩ =
      some (0, dsAfter order.order_id [Scalar.str "Order", so] order.parts) ∧
    heapGetOrder (dsAfter order.order_id [Scalar.str "Order", so] order.parts) 0 =
      some ⟨order.order_id, List.range' 1 order.parts.length⟩ ∧
    (List.range' 1 order.parts.length).mapM
        (heapGetPart (dsAfter order.order_id [Scalar.str "Order", so] order.parts)) =
      some (order.parts.map roundtripPart) := by
  refine ⟨?_, rfl, ?_⟩
  · rw [serialize_order_fresh order so hko hso hkeys hops hidorder hidnd]
    have hloop := mergePartsLoop_roundtrip order.parts [] order.order_id so hkeys
      (by simpa using hknd)
    simp only [List.length_nil, List.range'_zero, List.nil_append] at hloop
    unfold serialize_Order_dict_to_Order
    rw [cacheKey_orderDict order so hko]
    simp only [Option.bind_eq_bind, Option.some_bind]
    simp [createEnt, heapGetOrder, heapSet, alset, alget, orderDictOf]
    simp only [dsAfter, heapEntriesFor, cacheEntriesFor, List.length_nil,
      List.range'_zero] at hloop
    simp only [Nat.add_zero] at hloop
    rw [hloop]
    simp only [Option.some_bind]
    have hrem := removeUnused_dsAfter order so
    have hmer := sessionMerge_dsAfter order so hko hso
    simp only [dsAfter] at hrem hmer ⊢
    rw [hrem]
    simp only [Option.some_bind]
    rw [hmer]
  · have h := mapM_heapGetPart_ds order.parts [] order.order_id [Scalar.str "Order", so]
    simpa using h

/-- A two-part order with set, distinct keys and no operations, for the round-trip
witness. -/
def c8Part1 : OrderPartS :=
  ⟨101, PyVal.scalar (.int 1), PyVal.scalar (.int 1), PyVal.scalar (.str "Part One"),
   PyVal.scalar (.int 12), Option.none⟩

def c8Part2 : OrderPartS :=
  ⟨102, PyVal.scalar (.int 2), PyVal.scalar (.int 1), PyVal.scalar (.str "Part Two"),
   PyVal.scalar (.int 12), Option.none⟩

def c8OrderW : OrderS := ⟨103, PyVal.scalar (.int 1), [c8Part1, c8Part2]⟩

/-- C8 witness: the round trip at the concrete two-part order. -/
theorem c8_roundtrip_preserves_fields_and_membership_witness :
    serialize_Order_dict_to_Order
        ((serialize_Order_Order_to_dict c8OrderW Option.none ⟨[]⟩).1) Option.none
        ⟨[], 0, [], []⟩ =
      some (0, dsAfter c8OrderW.order_id [Scalar.str "Order", Scalar.int 1] c8OrderW.parts) ∧
    heapGetOrder (dsAfter c8OrderW.order_id [Scalar.str "Order", Scalar.int 1] c8OrderW.parts) 0 =
      some ⟨c8OrderW.order_id, List.range' 1 c8OrderW.parts.length⟩ ∧
    (List.range' 1 c8OrderW.parts.length).mapM
        (heapGetPart (dsAfter c8OrderW.order_id [Scalar.str "Order", Scalar.int 1] c8OrderW.parts)) =
      some (c8OrderW.parts.map roundtripPart) := by
  refine c8_roundtrip_preserves_fields_and_membership c8OrderW (Scalar.int 1)
    rfl (by decide) ?_ ?_ ?_ (by decide) (by decide)
  · intro p hp
    rcases List.mem_cons.mp hp with h | h
    · subst h
      exact ⟨Scalar.int 1, rfl, by decide⟩
    · rcases List.mem_cons.mp h with h2 | h2
      · subst h2
        exact ⟨Scalar.int 2, rfl, by decide⟩
      · cases h2
  · intro p hp
    rcases List.mem_cons.mp hp with h | h
    · subst h; rfl
    · rcases List.mem_cons.mp h with h2 | h2
      · subst h2; rfl
      · cases h2
  · intro p hp
    rcases List.mem_cons.mp hp with h | h
    · subst h; decide
    · rcases List.mem_cons.mp h with h2 | h2
      · subst h2; decide
      · cases h2
